import Mathlib

/-!
Verification of the procedural garden layout engine of `our-garden`.

Shallow embedding of `src/lib/hiddenMessage.ts` and `src/lib/garden.ts`:
JS numbers are modelled as rationals (`ℚ`), machine strings as `String`
(species and asset identifiers) or `List Char` (text lines fed to the
bitmap font), and JS `undefined` as `Option.none`.  Mutating loops are
modelled as folds / explicit recursion with the mutated locals threaded
as state.
-/

namespace OurGarden

/-- Modelled from the spec: `src/lib/random.ts` (the `mulberry32` PRNG) is
not under `src/`; per spec §4.1 it is a deterministic seed-indexed stream
of numbers in `[0,1)` with an owned cursor.  We model the whole family as
an abstract parameter `rngOf : ℕ → ℕ → ℚ` (seed ↦ draw index ↦ value) and
thread each stream's cursor explicitly; well-formedness (`values in
[0,1)`) is a hypothesis of the theorems that need it. -/
abbrev RngFamily := ℕ → ℕ → ℚ

/-- A single PRNG stream draws values in `[0,1)` (spec §4.1). -/
def StreamOk (f : ℕ → ℚ) : Prop := ∀ n, 0 ≤ f n ∧ f n < 1

/-- All streams of the family are well-formed. -/
def FamilyOk (rngOf : RngFamily) : Prop := ∀ s, StreamOk (rngOf s)

/-! ### `src/lib/hiddenMessage.ts` — pixel font and text mask -/

/-- Glyph rows, written as `0`/`1` strings in the source. -/
def glyphRows (rs : List String) : List (List Char) := rs.map String.toList

/-- `PIXEL_FONT` from `src/lib/hiddenMessage.ts` (6×7 glyphs). -/
def PIXEL_FONT : List (Char × List (List Char)) :=
  [ (' ', glyphRows ["000000", "000000", "000000", "000000", "000000", "000000", "000000"]),
    ('A', glyphRows ["001100", "010010", "100001", "111111", "100001", "100001", "100001"]),
    ('B', glyphRows ["111110", "100001", "111110", "100001", "100001", "100001", "111110"]),
    ('C', glyphRows ["001111", "010000", "100000", "100000", "100000", "010000", "001111"]),
    ('E', glyphRows ["111111", "100000", "111110", "100000", "100000", "100000", "111111"]),
    ('F', glyphRows ["111111", "100000", "111110", "100000", "100000", "100000", "100000"]),
    ('H', glyphRows ["100001", "100001", "111111", "100001", "100001", "100001", "100001"]),
    ('L', glyphRows ["100000", "100000", "100000", "100000", "100000", "100000", "111111"]),
    ('O', glyphRows ["011110", "100001", "100001", "100001", "100001", "100001", "011110"]),
    ('R', glyphRows ["111110", "100001", "111110", "101000", "100100", "100010", "100001"]),
    ('U', glyphRows ["100001", "100001", "100001", "100001", "100001", "100001", "011110"]),
    ('V', glyphRows ["100001", "100001", "100001", "100001", "010010", "010010", "001100"]),
    ('Y', glyphRows ["100001", "010010", "001100", "001100", "001100", "001100", "001100"]) ]

/-- `PIXEL_FONT[ch]` (JS property lookup; `undefined` ↦ `none`). -/
def fontLookup (ch : Char) : Option (List (List Char)) :=
  (PIXEL_FONT.find? (fun kv => kv.fst == ch)).map (·.snd)

/-- The all-off space glyph, `PIXEL_FONT[" "]`. -/
def spaceGlyph : List (List Char) := (fontLookup ' ').getD []

structure TextMaskOptions where
  charSpacing : Option ℕ := none
  lineSpacing : Option ℕ := none
  pixelScaleX : Option ℕ := none
  pixelScaleY : Option ℕ := none
deriving DecidableEq

structure LetterMeta where
  lineIndex : ℕ
  letterIndex : ℕ
  char : Char
deriving DecidableEq

structure TextMaskResult where
  mask : List (List Bool)
  letterMap : List (List ℤ)
  letters : List Char
  letterMeta : List LetterMeta
deriving DecidableEq

/-- `grid[r][c] = v` (in-bounds writes only; the source guards `row < rows
&& col < cols` separately, and `List.set` is a no-op out of range). -/
def set2 {α : Type} (g : List (List α)) (r c : ℕ) (v : α) : List (List α) :=
  match g[r]? with
  | some rowL => g.set r (rowL.set c v)
  | none => g

/-- The two mutable grids of `buildTextMask`. -/
structure MaskGrid where
  mask : List (List Bool)
  letterMap : List (List ℤ)
deriving DecidableEq

/-- Geometry parameters of one `buildTextMask` call. -/
structure MaskParams where
  rows : ℕ
  cols : ℕ
  baseCharWidth : ℕ
  baseCharHeight : ℕ
  pixelScaleX : ℕ
  pixelScaleY : ℕ
  scaledCharWidth : ℕ
  scaledCharHeight : ℕ
  charSpacing : ℕ
  lineSpacing : ℕ
deriving DecidableEq

/-- One conditional `mask[row][col] = true; letterMap[row][col] = idx`. -/
def stampPixel (p : MaskParams) (row col : ℕ) (currentIndex : ℤ) (g : MaskGrid) : MaskGrid :=
  if row < p.rows ∧ col < p.cols then
    { mask := set2 g.mask row col true, letterMap := set2 g.letterMap row col currentIndex }
  else g

/-- The four nested stamping loops over one glyph
(`for r … for c … for yScale … for xScale …`). -/
def stampGlyph (p : MaskParams) (startRow colCursor : ℕ) (glyph : List (List Char))
    (currentIndex : ℤ) (g : MaskGrid) : MaskGrid :=
  (List.range p.baseCharHeight).foldl (fun g r =>
    match glyph[r]? with
    | none => g
    | some glyphRow =>
      (List.range p.baseCharWidth).foldl (fun g c =>
        if glyphRow.getD c '0' = '1' then
          (List.range p.pixelScaleY).foldl (fun g yScale =>
            (List.range p.pixelScaleX).foldl (fun g xScale =>
              stampPixel p (startRow + r * p.pixelScaleY + yScale)
                (colCursor + c * p.pixelScaleX + xScale) currentIndex g) g) g
        else g) g) g

/-- Mutable state of the per-line character loop of `buildTextMask`. -/
structure MaskBuildState where
  grid : MaskGrid
  letters : List Char
  letterMeta : List LetterMeta
  letterCounter : ℕ
deriving DecidableEq

structure LineState where
  bs : MaskBuildState
  colCursor : ℕ
  charPosition : ℕ
deriving DecidableEq

/-- The body of `for (const ch of line)` in `buildTextMask`: a space keeps
the sentinel `-1` and contributes no letter; every other character takes
the next global letter index and is stamped (unknown characters through
the all-off space glyph). -/
def stampChar (p : MaskParams) (lineIndex : ℕ) (st : LineState) (ch : Char) : LineState :=
  let glyph := (fontLookup ch).getD spaceGlyph
  let currentIndex : ℤ := if ch = ' ' then -1 else st.bs.letterCounter
  let bs :=
    if ch = ' ' then st.bs
    else { st.bs with
      letters := st.bs.letters ++ [ch],
      letterMeta := st.bs.letterMeta ++
        [{ lineIndex := lineIndex, letterIndex := st.charPosition, char := ch }],
      letterCounter := st.bs.letterCounter + 1 }
  let startRow := lineIndex * (p.scaledCharHeight + p.lineSpacing)
  let grid := stampGlyph p startRow st.colCursor glyph currentIndex bs.grid
  { bs := { bs with grid := grid },
    colCursor := st.colCursor + p.scaledCharWidth + p.charSpacing,
    charPosition := st.charPosition + 1 }

/-- One line of `buildTextMask` (centering plus the character loop). -/
def stampLine (p : MaskParams) (bs : MaskBuildState) (lineIndex : ℕ)
    (line : List Char) : MaskBuildState :=
  let lineLength := max line.length 1
  let lineWidth := lineLength * (p.scaledCharWidth + p.charSpacing) - p.charSpacing
  let colCursor0 := (p.cols - lineWidth) / 2
  (line.foldl (stampChar p lineIndex)
    { bs := bs, colCursor := colCursor0, charPosition := 0 }).bs

/-- `buildTextMask` from `src/lib/hiddenMessage.ts` (object-options form;
the numeric `charSpacing` overload is not exercised by this repository).
For empty `lines` JS computes `-Infinity` as the max line length, but the
mask has zero rows either way, so the `0` base below is equivalent. -/
def buildTextMask (lines : List (List Char)) (options : TextMaskOptions) : TextMaskResult :=
  let charSpacing := options.charSpacing.getD 2
  let lineSpacing := options.lineSpacing.getD 2
  let pixelScaleX := max 1 (options.pixelScaleX.getD 1)
  let pixelScaleY := max 1 (options.pixelScaleY.getD 1)
  -- `Object.keys(PIXEL_FONT).find(key => key.trim().length)`: first non-space key.
  let sampleGlyph :=
    ((PIXEL_FONT.find? (fun kv => !(kv.fst == ' '))).map (·.snd)).getD spaceGlyph
  let baseCharWidth := (sampleGlyph[0]?.getD []).length
  let baseCharHeight := sampleGlyph.length
  let scaledCharWidth := baseCharWidth * pixelScaleX
  let scaledCharHeight := baseCharHeight * pixelScaleY
  let normalized := lines.map (fun l => l.map Char.toUpper)
  let maxLineLength := (normalized.map (fun l => max l.length 1)).foldr max 0
  let cols := maxLineLength * (scaledCharWidth + charSpacing) - charSpacing
  let rows := normalized.length * scaledCharHeight + (normalized.length - 1) * lineSpacing
  let p : MaskParams :=
    { rows := rows, cols := cols, baseCharWidth := baseCharWidth,
      baseCharHeight := baseCharHeight, pixelScaleX := pixelScaleX,
      pixelScaleY := pixelScaleY, scaledCharWidth := scaledCharWidth,
      scaledCharHeight := scaledCharHeight, charSpacing := charSpacing,
      lineSpacing := lineSpacing }
  let st0 : MaskBuildState :=
    { grid := { mask := List.replicate rows (List.replicate cols false),
                letterMap := List.replicate rows (List.replicate cols (-1)) },
      letters := [], letterMeta := [], letterCounter := 0 }
  let final := normalized.enum.foldl (fun bs lp => stampLine p bs lp.1 lp.2) st0
  { mask := final.grid.mask, letterMap := final.grid.letterMap,
    letters := final.letters, letterMeta := final.letterMeta }

/-! ### `src/lib/hiddenMessage.ts` — mask → spawn points -/

structure MaskBounds where
  width : ℚ
  height : ℚ
  offsetX : Option ℚ := none
  offsetY : Option ℚ := none
  seed : Option ℕ := none
  jitter : Option ℚ := none
deriving DecidableEq

structure SpawnPoint where
  x : ℚ
  y : ℚ
  row : ℕ
  col : ℕ
  pixelIndex : ℕ
  letterIndex : ℤ
  lineIndex : ℕ
  letterChar : String
  species : Option String := none
deriving DecidableEq

/-- `letterMeta[li]` (JS indexing: negative or overlarge index ↦ `undefined`). -/
def metaAt (letterMeta : List LetterMeta) (li : ℤ) : Option LetterMeta :=
  if 0 ≤ li then letterMeta[li.toNat]? else none

/-- The `for (let d = 0; d < totalCopies; d++)` body: two jitter draws per
copy; a `-1` letter index aborts the whole cell (JS `return` from the
`forEach` callback) after the two draws of the current copy. -/
def copyLoop (f : ℕ → ℚ) (jitter cellW cellH offsetX offsetY : ℚ)
    (letterMap : List (List ℤ)) (letterMeta : List LetterMeta) (row col : ℕ) :
    ℕ → List SpawnPoint × ℕ → List SpawnPoint × ℕ
  | 0, st => st
  | d + 1, (pts, k) =>
    let jx := (f k - 1/2) * jitter
    let jy := (f (k+1) - 1/2) * jitter
    let letterIndex := (letterMap[row]?.getD []).getD col (-1)
    if letterIndex = -1 then (pts, k + 2)
    else
      let m := metaAt letterMeta letterIndex
      let pt : SpawnPoint :=
        { x := offsetX + ((col : ℚ) + 1/2 + jx) * cellW,
          y := offsetY + ((row : ℚ) + 1/2 + jy) * cellH,
          row := row, col := col,
          pixelIndex := pts.length,
          letterIndex := letterIndex,
          lineIndex := (m.map (·.lineIndex)).getD 0,
          letterChar := (m.map (fun mm => String.mk [mm.char])).getD "" }
      copyLoop f jitter cellW cellH offsetX offsetY letterMap letterMeta row col d
        (pts ++ [pt], k + 2)

/-- Processing of one mask cell in `generateFlowerPositionsFromMask`.
JS evaluates `fractional > 0 && rng() < fractional` with short-circuit:
the PRNG draw for the fractional remainder happens only when the
fractional part is positive. -/
def processCell (f : ℕ → ℚ) (density jitter cellW cellH offsetX offsetY : ℚ)
    (letterMap : List (List ℤ)) (letterMeta : List LetterMeta)
    (row col : ℕ) (isOn : Bool) (st : List SpawnPoint × ℕ) : List SpawnPoint × ℕ :=
  if !isOn then st
  else
    let baseCopies : ℤ := ⌊density⌋
    let fractional : ℚ := max 0 (min 1 (density - baseCopies))
    let ek : ℤ × ℕ :=
      if 0 < fractional then (if f st.2 < fractional then (1, st.2 + 1) else (0, st.2 + 1))
      else (0, st.2)
    let totalCopies := baseCopies + ek.1
    if totalCopies ≤ 0 then (st.1, ek.2)
    else copyLoop f jitter cellW cellH offsetX offsetY letterMap letterMeta row col
      totalCopies.toNat (st.1, ek.2)

/-- `generateFlowerPositionsFromMask` with the PRNG cursor made explicit;
the second component is the number of draws consumed. -/
def genFlowerPosAux (f : ℕ → ℚ) (maskResult : TextMaskResult) (bounds : MaskBounds)
    (density : ℚ) : List SpawnPoint × ℕ :=
  let mask := maskResult.mask
  let rows := mask.length
  let cols := (mask[0]?.getD []).length
  if rows = 0 ∨ cols = 0 then ([], 0)
  else
    let offsetX := bounds.offsetX.getD ((100 - bounds.width) / 2)
    let offsetY := bounds.offsetY.getD ((100 - bounds.height) / 2)
    let cellW := bounds.width / (cols : ℚ)
    let cellH := bounds.height / (rows : ℚ)
    let jitter := bounds.jitter.getD (3/20)
    mask.enum.foldl (fun st rp =>
      rp.2.enum.foldl (fun st cp =>
        processCell f density jitter cellW cellH offsetX offsetY
          maskResult.letterMap maskResult.letterMeta rp.1 cp.1 cp.2 st) st) ([], 0)

/-- `generateFlowerPositionsFromMask` from `src/lib/hiddenMessage.ts`. -/
def generateFlowerPositionsFromMask (rngOf : RngFamily) (maskResult : TextMaskResult)
    (bounds : MaskBounds) (density : ℚ) : List SpawnPoint :=
  (genFlowerPosAux (rngOf (bounds.seed.getD 2025)) maskResult bounds density).1

/-! ### `src/lib/hiddenMessage.ts` — species assignment -/

def DEFAULT_SPECIES : List String :=
  ["forgetmenot", "lily", "peony", "rose", "tulip", "sunflower"]

/-- `enabledSpecies.length ? enabledSpecies : DEFAULT_SPECIES`. -/
def basePoolOf (enabledSpecies : List String) : List String :=
  if enabledSpecies = [] then DEFAULT_SPECIES else enabledSpecies

/-- `sanitizedFallback.length ? sanitizedFallback : basePool`. -/
def fallbackPoolOf (enabledSpecies : List String) : List String :=
  let basePool := basePoolOf enabledSpecies
  let sanitizedFallback := basePool.filter (fun s => !(s == "sunflower"))
  if sanitizedFallback = [] then basePool else sanitizedFallback

/-- The per-point `activePool` of `assignSpeciesToPoints`; it depends on
the point only through its letter index. -/
def activePoolFor (letterMeta : List LetterMeta) (enabledSpecies : List String)
    (lineSpecies : List (List String)) (li : ℤ) : List String :=
  let fallbackPool := fallbackPoolOf enabledSpecies
  let lineList :=
    match metaAt letterMeta li with
    | some m => (lineSpecies[m.lineIndex]?).getD fallbackPool
    | none => fallbackPool
  let filteredList := (lineList.filter (fun s => !(s == "sunflower"))).filter
    (fun s => fallbackPool.contains s)
  if filteredList = [] then fallbackPool else filteredList

/-- The memoized per-letter start offset (first branch of the JS
`letterStartIndex` lookup). -/
def startIndexFor (letterMeta : List LetterMeta) (enabledSpecies : List String)
    (lineSpecies : List (List String)) (li : ℤ) (idx : ℕ) : ℕ :=
  let activePool := activePoolFor letterMeta enabledSpecies lineSpecies li
  match metaAt letterMeta li with
  | some mm => mm.letterIndex % activePool.length
  | none => idx % activePool.length

def SPECIES_PER_LETTER : ℕ := 3

/-- The fixed-window local palette taken from `activePool`. -/
def perLetterPoolFor (activePool : List String) (startIndex : ℕ) : List String :=
  if SPECIES_PER_LETTER ≤ activePool.length then
    (List.range SPECIES_PER_LETTER).map
      (fun i => activePool.getD ((startIndex + i) % activePool.length) "")
  else activePool

/-- The body of `points.map((point, idx) => …)` in `assignSpeciesToPoints`,
with the two mutable `Map`s threaded as functions. -/
def assignOne (letterMeta : List LetterMeta) (enabledSpecies : List String)
    (lineSpecies : List (List String)) (counters : ℤ → ℕ) (starts : ℤ → Option ℕ)
    (idx : ℕ) (point : SpawnPoint) : SpawnPoint × (ℤ → ℕ) × (ℤ → Option ℕ) :=
  let fallbackPool := fallbackPoolOf enabledSpecies
  let counter := counters point.letterIndex
  let counters' := fun l => if l = point.letterIndex then counter + 1 else counters l
  let activePool := activePoolFor letterMeta enabledSpecies lineSpecies point.letterIndex
  let si : ℕ × (ℤ → Option ℕ) :=
    match starts point.letterIndex with
    | some s => (s, starts)
    | none =>
      let s0 := startIndexFor letterMeta enabledSpecies lineSpecies point.letterIndex idx
      (s0, fun l => if l = point.letterIndex then some s0 else starts l)
  let perLetterPool := perLetterPoolFor activePool si.1
  let species : Option String :=
    ((perLetterPool[counter % perLetterPool.length]?).orElse
      (fun _ => activePool[counter % activePool.length]?)).orElse
      (fun _ => fallbackPool[idx % fallbackPool.length]?)
  ({ point with species := species }, counters', si.2)

def assignLoop (letterMeta : List LetterMeta) (enabledSpecies : List String)
    (lineSpecies : List (List String)) :
    (ℤ → ℕ) → (ℤ → Option ℕ) → ℕ → List SpawnPoint → List SpawnPoint
  | _, _, _, [] => []
  | counters, starts, idx, p :: rest =>
    let r := assignOne letterMeta enabledSpecies lineSpecies counters starts idx p
    r.1 :: assignLoop letterMeta enabledSpecies lineSpecies r.2.1 r.2.2 (idx + 1) rest

/-- `assignSpeciesToPoints` from `src/lib/hiddenMessage.ts`. -/
def assignSpeciesToPoints (points : List SpawnPoint) (maskResult : TextMaskResult)
    (enabledSpecies : List String) (lineSpecies : List (List String)) : List SpawnPoint :=
  if fallbackPoolOf enabledSpecies = [] then points
  else assignLoop maskResult.letterMeta enabledSpecies lineSpecies
    (fun _ => 0) (fun _ => none) 0 points

/-! ### `src/lib/garden.ts` -/

structure TSBounds where
  width : ℚ
  height : ℚ
  offsetX : Option ℚ := none
  offsetY : Option ℚ := none
deriving DecidableEq

/-- `TextSetConfig` from `src/lib/gardenConfig.ts`. -/
structure TextSetConfig where
  id : String
  label : String
  lines : List (List Char)
  startDay : ℕ
  bounds : TSBounds
  density : ℚ
  jitter : ℚ
  seed : ℕ
  maskOptions : TextMaskOptions
  lineSpecies : List (List String)
deriving DecidableEq

structure FlowerData where
  id : ℕ
  x : ℚ
  y : ℚ
  svg : String
  scale : ℚ
  rotation : ℚ
  zIndex : ℤ
  dayNumber : ℕ
  date : String
  textSetId : Option String := none
deriving DecidableEq

def COLS : ℕ := 64
def ROWS : ℕ := 56
def SEED : ℕ := 20201027
def totalCells : ℕ := COLS * ROWS
def cellW : ℚ := 100 / (COLS : ℚ)
def cellH : ℚ := 100 / (ROWS : ℚ)

/-- Proleptic-Gregorian civil date from days since 1970-01-01 (models the
UTC day arithmetic of the JS `Date` used for the `date` field). -/
def civilFromDays (z : ℤ) : ℤ × ℕ × ℕ :=
  let z' := z + 719468
  let era : ℤ := Int.fdiv z' 146097
  let doe : ℕ := (z' - era * 146097).toNat
  let yoe : ℕ := (doe - doe / 1460 + doe / 36524 - doe / 146096) / 365
  let doy : ℕ := doe - (365 * yoe + yoe / 4 - yoe / 100)
  let mp : ℕ := (5 * doy + 2) / 153
  let d : ℕ := doy - (153 * mp + 2) / 5 + 1
  let m : ℕ := if mp < 10 then mp + 3 else mp - 9
  (if m ≤ 2 then (yoe : ℤ) + era * 400 + 1 else (yoe : ℤ) + era * 400, m, d)

/-- Days since 1970-01-01 of a civil date. -/
def daysFromCivil (y : ℤ) (m d : ℕ) : ℤ :=
  let y' := if m ≤ 2 then y - 1 else y
  let era := Int.fdiv y' 400
  let yoe : ℕ := (y' - era * 400).toNat
  let mp : ℕ := if 2 < m then m - 3 else m + 9
  let doy : ℕ := (153 * mp + 2) / 5 + d - 1
  let doe : ℕ := yoe * 365 + yoe / 4 - yoe / 100 + doy
  era * 146097 + (doe : ℤ) - 719468

def pad2 (n : ℕ) : String := if n < 10 then "0" ++ toString n else toString n

/-- `date.toISOString().split("T")[0]`. -/
def isoOfDays (z : ℤ) : String :=
  let c := civilFromDays z
  toString c.1 ++ "-" ++ pad2 c.2.1 ++ "-" ++ pad2 c.2.2

/-- `new Date("2017-10-27")` advanced by `i` days, rendered `YYYY-MM-DD`. -/
def dateStrFor (i : ℕ) : String := isoOfDays (daysFromCivil 2017 10 27 + (i : ℤ))

/-- `svg.split("-")[0]` — the species prefix of a variant identifier. -/
def speciesOfSvg (svg : String) : String := ((svg.splitOn "-")[0]?).getD ""

/-- Modelled from the spec: `src/lib/flowers.ts` (`FLOWER_SVGS`, the flat
catalog of variant identifiers, §6: `species-theme` naming) is not under
`src/`; the catalog is passed in as a parameter `svgs : List String`.
`buildSpeciesVariants` groups it by species prefix preserving order, so
the lookup `speciesVariants[species]` is the order-preserving filter
below (a missing key ↔ an empty filter). -/
def speciesVariantsOf (svgs : List String) (species : String) : List String :=
  svgs.filter (fun s => speciesOfSvg s == species)

/-- `speciesVariants[species] ?? FLOWER_SVGS.filter(s => s.startsWith("rose-"))`. -/
def variantsFor (svgs : List String) (species : String) : List String :=
  let vs := speciesVariantsOf svgs species
  if vs = [] then svgs.filter (fun s => s.startsWith "rose-") else vs

/-- `variants[index % variants.length] ?? variants[0]` (for an empty
`variants` JS yields `undefined`; no claim depends on that value and we
render it as `""`). -/
def pickVariant (variants : List String) (index : ℕ) : String :=
  ((variants[index % variants.length]?).orElse (fun _ => variants[0]?)).getD ""

structure TextFlowerSlot where
  dayIndex : ℕ
  point : SpawnPoint
  textSetId : String
  svg : String
deriving DecidableEq

/-- `[...new Set(xs)]` — deduplication preserving first occurrences. -/
def jsDedup (xs : List String) : List String :=
  xs.foldl (fun acc a => if a ∈ acc then acc else acc ++ [a]) []

/-- The per-config part of `precomputeTextFlowers`: mask → spawn points →
species → day-indexed slots. -/
def slotsOfConfig (rngOf : RngFamily) (svgs : List String) (ts : TextSetConfig) :
    List TextFlowerSlot :=
  let maskResult := buildTextMask ts.lines ts.maskOptions
  let spawnPoints := generateFlowerPositionsFromMask rngOf maskResult
    { width := ts.bounds.width, height := ts.bounds.height,
      offsetX := ts.bounds.offsetX, offsetY := ts.bounds.offsetY,
      seed := some ts.seed, jitter := some ts.jitter } ts.density
  let allSpecies := jsDedup ts.lineSpecies.flatten
  let assignedPoints := assignSpeciesToPoints spawnPoints maskResult allSpecies ts.lineSpecies
  assignedPoints.enum.map (fun ip =>
    let species := ip.2.species.getD "rose"
    let variants := variantsFor svgs species
    { dayIndex := ts.startDay + ip.1, point := ip.2, textSetId := ts.id,
      svg := pickVariant variants ip.1 })

/-- Stable insertion of a slot after all slots with `dayIndex ≤` its own. -/
def insertSlot (a : TextFlowerSlot) : List TextFlowerSlot → List TextFlowerSlot
  | [] => [a]
  | b :: l => if b.dayIndex ≤ a.dayIndex then b :: insertSlot a l else a :: b :: l

/-- `slots.sort((a, b) => a.dayIndex - b.dayIndex)`; JS `Array.prototype.sort`
is stable (ES2019), embedded as a stable insertion sort. -/
def sortSlots (l : List TextFlowerSlot) : List TextFlowerSlot :=
  l.foldl (fun acc a => insertSlot a acc) []

/-- `precomputeTextFlowers` from `src/lib/garden.ts`. -/
def precomputeTextFlowers (rngOf : RngFamily) (svgs : List String)
    (textSets : List TextSetConfig) : List TextFlowerSlot :=
  sortSlots ((textSets.map (slotsOfConfig rngOf svgs)).flatten)

/-- The `Map.set` fold building `textSlotMap` (later writes win). -/
def slotMapOf (slots : List TextFlowerSlot) : ℕ → Option TextFlowerSlot :=
  slots.foldl (fun m s => fun d => if d = s.dayIndex then some s else m d) (fun _ => none)

/-- `[indices[i], indices[j]] = [indices[j], indices[i]]`. -/
def swapAt (l : List ℕ) (i j : ℕ) : List ℕ :=
  let a := l.getD i 0
  let b := l.getD j 0
  (l.set i b).set j a

/-- The Fisher–Yates loop `for (let i = len-1; i > 0; i--)`, counting the
PRNG draws consumed.  The first argument is the current loop index `i`. -/
def fyAux (f : ℕ → ℚ) : ℕ → ℕ → List ℕ → List ℕ × ℕ
  | 0, k, l => (l, k)
  | i + 1, k, l =>
    let j := (⌊f k * ((i : ℚ) + 2)⌋).toNat
    fyAux f i (k + 1) (swapAt l (i + 1) j)

/-- The shuffled cell permutation of one `generateGarden` call, together
with the number of draws the shuffle consumed. -/
def shuffledIndices (f : ℕ → ℚ) : List ℕ × ℕ :=
  fyAux f (totalCells - 1) 0 (List.range totalCells)

/-- The message-day branch of the day loop. -/
def mkMessageFlower (i : ℕ) (slot : TextFlowerSlot) : FlowerData :=
  { id := i, x := slot.point.x, y := slot.point.y, svg := slot.svg,
    scale := 21/20, rotation := 0, zIndex := 200 + (slot.point.row : ℤ),
    dayNumber := i + 1, date := dateStrFor i, textSetId := some slot.textSetId }

/-- The shuffled-grid branch of the day loop (five draws at cursor `k`). -/
def mkGridFlower (f : ℕ → ℚ) (svgs : List String) (i k cellIndex : ℕ) : FlowerData :=
  let col := cellIndex % COLS
  let row := cellIndex / COLS
  let x := (col : ℚ) * cellW + f k * cellW
  let y := (row : ℚ) * cellH + f (k + 1) * cellH
  { id := i, x := x, y := y,
    svg := (svgs.getD (⌊f (k + 2) * (svgs.length : ℚ)⌋).toNat ""),
    scale := 4/5 + f (k + 3) * (2/5),
    rotation := -15 + f (k + 4) * 30,
    zIndex := ⌊y⌋, dayNumber := i + 1, date := dateStrFor i }

/-- The grid-exhausted fallback branch (five draws at cursor `k`). -/
def mkFallbackFlower (f : ℕ → ℚ) (svgs : List String) (i k : ℕ) : FlowerData :=
  let x := f k * 100
  let y := f (k + 1) * 100
  { id := i, x := x, y := y,
    svg := (svgs.getD (⌊f (k + 2) * (svgs.length : ℚ)⌋).toNat ""),
    scale := 4/5 + f (k + 3) * (2/5),
    rotation := -15 + f (k + 4) * 30,
    zIndex := ⌊y⌋, dayNumber := i + 1, date := dateStrFor i }

/-- The day loop of `generateGarden`: `i` is the current day index, `k`
the PRNG cursor, `used` the `gridCellUsed` counter, and the last argument
the number of remaining iterations. -/
def gardenLoop (f : ℕ → ℚ) (svgs : List String) (lookup : ℕ → Option TextFlowerSlot)
    (indices : List ℕ) : ℕ → ℕ → ℕ → ℕ → List FlowerData
  | _, _, _, 0 => []
  | i, k, used, m + 1 =>
    match lookup i with
    | some slot => mkMessageFlower i slot :: gardenLoop f svgs lookup indices (i + 1) k used m
    | none =>
      if used < totalCells then
        mkGridFlower f svgs i k (indices.getD used 0) ::
          gardenLoop f svgs lookup indices (i + 1) (k + 5) (used + 1) m
      else
        mkFallbackFlower f svgs i k :: gardenLoop f svgs lookup indices (i + 1) (k + 5) used m

/-- `generateGarden` from `src/lib/garden.ts` (the two-argument layout
engine; a negative JS `count` runs the loop zero times, captured by
`Int.toNat`). -/
def generateGarden (rngOf : RngFamily) (svgs : List String) (count : ℤ)
    (textSets : List TextSetConfig) : List FlowerData :=
  let f := rngOf SEED
  let fy := shuffledIndices f
  let slots := precomputeTextFlowers rngOf svgs textSets
  gardenLoop f svgs (slotMapOf slots) fy.1 0 fy.2 0 count.toNat

/-! ### Helper lemmas about the day loop -/

lemma gardenLoop_length (f : ℕ → ℚ) (svgs : List String)
    (lookup : ℕ → Option TextFlowerSlot) (indices : List ℕ) :
    ∀ (m i k used : ℕ), (gardenLoop f svgs lookup indices i k used m).length = m := by
  intro m
  induction m with
  | zero => intro i k used; rfl
  | succ m ih =>
    intro i k used
    cases h : lookup i with
    | some slot => simp [gardenLoop, h, ih]
    | none =>
      by_cases hu : used < totalCells <;> simp [gardenLoop, h, hu, ih]

lemma gardenLoop_map_id (f : ℕ → ℚ) (svgs : List String)
    (lookup : ℕ → Option TextFlowerSlot) (indices : List ℕ) :
    ∀ (m i k used : ℕ),
      (gardenLoop f svgs lookup indices i k used m).map FlowerData.id = List.range' i m := by
  intro m
  induction m with
  | zero => intro i k used; rfl
  | succ m ih =>
    intro i k used
    rw [List.range'_succ]
    cases h : lookup i with
    | some slot =>
      simp [gardenLoop, h, ih, mkMessageFlower]
    | none =>
      by_cases hu : used < totalCells <;>
        simp [gardenLoop, h, hu, ih, mkGridFlower, mkFallbackFlower]

lemma gardenLoop_isPre (f : ℕ → ℚ) (svgs : List String)
    (lookup : ℕ → Option TextFlowerSlot) (indices : List ℕ) :
    ∀ (m i k used : ℕ),
      gardenLoop f svgs lookup indices i k used m <+:
        gardenLoop f svgs lookup indices i k used (m + 1) := by
  intro m
  induction m with
  | zero => intro i k used; exact List.nil_prefix
  | succ m ih =>
    intro i k used
    cases h : lookup i with
    | some slot =>
      simpa [gardenLoop, h, List.cons_prefix_cons] using ih (i + 1) k used
    | none =>
      by_cases hu : used < totalCells
      · simpa [gardenLoop, h, hu, List.cons_prefix_cons] using ih (i + 1) (k + 5) (used + 1)
      · simpa [gardenLoop, h, hu, List.cons_prefix_cons] using ih (i + 1) (k + 5) used

/-- **C3.** Id density: `generateGarden(count, textSets)` returns exactly
`count` placements whose ids, in output order, are `0, 1, …, count-1`;
for `count ≤ 0` the result is the empty list (no error is raised — the
embedded function is total). -/
theorem C3_id_density (rngOf : RngFamily) (svgs : List String) (count : ℤ)
    (textSets : List TextSetConfig) :
    (generateGarden rngOf svgs count textSets).length = count.toNat ∧
    (generateGarden rngOf svgs count textSets).map FlowerData.id = List.range count.toNat ∧
    (count ≤ 0 → generateGarden rngOf svgs count textSets = []) := by
  refine ⟨gardenLoop_length _ _ _ _ _ _ _ _, ?_, ?_⟩
  · rw [List.range_eq_range']
    exact gardenLoop_map_id _ _ _ _ _ _ _ _
  · intro hle
    have h0 : count.toNat = 0 := Int.toNat_of_nonpos hle
    unfold generateGarden
    rw [h0]
    rfl

/-- Witness for the `count ≤ 0` hypothesis of C3 at `count = -3`. -/
theorem C3_id_density_witness :
    generateGarden (fun _ _ => (1 : ℚ)/2) [] (-3) [] = [] :=
  (C3_id_density (fun _ _ => (1 : ℚ)/2) [] (-3) []).2.2 (by decide)

/-- **C1.** Stability under count growth: for every `count`, the output of
`generateGarden count textSets` is a prefix of `generateGarden (count+1)
textSets` — every already-emitted placement keeps all of its fields
(`id, x, y, svg, scale, rotation, zIndex, dayNumber, date, textSetId`)
verbatim, and the larger call only appends. -/
theorem C1_stable_under_count_growth (rngOf : RngFamily) (svgs : List String)
    (count : ℤ) (textSets : List TextSetConfig) :
    generateGarden rngOf svgs count textSets <+:
      generateGarden rngOf svgs (count + 1) textSets ∧
    ∀ j : ℕ, j < (generateGarden rngOf svgs count textSets).length →
      (generateGarden rngOf svgs (count + 1) textSets)[j]? =
        (generateGarden rngOf svgs count textSets)[j]? := by
  have hpre : generateGarden rngOf svgs count textSets <+:
      generateGarden rngOf svgs (count + 1) textSets := by
    unfold generateGarden
    rcases le_or_lt 0 count with hc | hc
    · have : (count + 1).toNat = count.toNat + 1 := by omega
      rw [this]
      exact gardenLoop_isPre _ _ _ _ _ _ _ _
    · have : count.toNat = 0 := by omega
      rw [this]
      exact List.nil_prefix
  refine ⟨hpre, ?_⟩
  intro j hj
  obtain ⟨t, ht⟩ := hpre
  rw [← ht, List.getElem?_append, if_pos hj]

/-! ### Helper lemmas about the mask builder -/

lemma foldl_eq_of_id {α σ : Type} (step : σ → α → σ) (h : ∀ g a, step g a = g) :
    ∀ (l : List α) (g : σ), l.foldl step g = g := by
  intro l
  induction l with
  | nil => intro g; rfl
  | cons a l ih => intro g; rw [List.foldl_cons, h, ih]

lemma spaceGlyph_eq : spaceGlyph = List.replicate 7 (List.replicate 6 '0') := by decide

/-- Stamping the all-off space glyph changes neither grid. -/
lemma stampGlyph_space (p : MaskParams) (startRow colCursor : ℕ) (ci : ℤ) (g : MaskGrid) :
    stampGlyph p startRow colCursor spaceGlyph ci g = g := by
  unfold stampGlyph
  refine foldl_eq_of_id _ ?_ _ _
  intro g r
  rcases h : spaceGlyph[r]? with _ | gr
  · simp only [h]
  · simp only [h]
    have hgr : gr = List.replicate 6 '0' := by
      rw [spaceGlyph_eq] at h
      rcases List.getElem?_eq_some_iff.1 h with ⟨hr, hget⟩
      rw [List.getElem_replicate] at hget
      exact hget.symm
    refine foldl_eq_of_id _ ?_ _ _
    intro g c
    have hgd : gr.getD c '0' = '0' := by
      subst hgr
      rcases lt_or_le c 6 with hc | hc
      · rw [List.getD_eq_getElem?_getD, List.getElem?_replicate, if_pos hc]
        rfl
      · rw [List.getD_eq_getElem?_getD, List.getElem?_eq_none (by simpa using hc)]
        rfl
    rw [if_neg (by rw [hgd]; decide)]

lemma stampChar_letters (p : MaskParams) (li : ℕ) (st : LineState) (ch : Char) :
    (stampChar p li st ch).bs.letters =
      st.bs.letters ++ (if ch = ' ' then [] else [ch]) ∧
    (stampChar p li st ch).bs.letterMeta.map LetterMeta.char =
      st.bs.letterMeta.map LetterMeta.char ++ (if ch = ' ' then [] else [ch]) := by
  by_cases h : ch = ' ' <;> simp [stampChar, h]

lemma lineState_letters (p : MaskParams) (li : ℕ) :
    ∀ (line : List Char) (ls : LineState),
      (line.foldl (stampChar p li) ls).bs.letters =
        ls.bs.letters ++ line.filter (fun c => !(c == ' ')) ∧
      (line.foldl (stampChar p li) ls).bs.letterMeta.map LetterMeta.char =
        ls.bs.letterMeta.map LetterMeta.char ++ line.filter (fun c => !(c == ' ')) := by
  intro line
  induction line with
  | nil => intro ls; simp
  | cons ch line ih =>
    intro ls
    rw [List.foldl_cons]
    obtain ⟨ih1, ih2⟩ := ih (stampChar p li ls ch)
    obtain ⟨h1, h2⟩ := stampChar_letters p li ls ch
    constructor
    · rw [ih1, h1, List.filter_cons]
      by_cases h : ch = ' ' <;> simp [h]
    · rw [ih2, h2, List.filter_cons]
      by_cases h : ch = ' ' <;> simp [h]

lemma stampLine_letters (p : MaskParams) (bs : MaskBuildState) (li : ℕ) (line : List Char) :
    (stampLine p bs li line).letters = bs.letters ++ line.filter (fun c => !(c == ' ')) ∧
    (stampLine p bs li line).letterMeta.map LetterMeta.char =
      bs.letterMeta.map LetterMeta.char ++ line.filter (fun c => !(c == ' ')) := by
  unfold stampLine
  exact lineState_letters p li line _

lemma enum_map_snd_comp {α β : Type} (L : List α) (g : α → β) :
    L.enum.map (fun lp => g lp.2) = L.map g := by
  have h1 : L.enum.map (fun lp => g lp.2) = (L.enum.map Prod.snd).map g := by
    rw [List.map_map]
    rfl
  rw [h1, List.enum_map_snd]

lemma linesFold_letters (p : MaskParams) :
    ∀ (el : List (ℕ × List Char)) (bs : MaskBuildState),
      (el.foldl (fun bs lp => stampLine p bs lp.1 lp.2) bs).letters =
        bs.letters ++ (el.map (fun lp => lp.2.filter (fun c => !(c == ' ')))).flatten ∧
      (el.foldl (fun bs lp => stampLine p bs lp.1 lp.2) bs).letterMeta.map LetterMeta.char =
        bs.letterMeta.map LetterMeta.char ++
          (el.map (fun lp => lp.2.filter (fun c => !(c == ' ')))).flatten := by
  intro el
  induction el with
  | nil => intro bs; simp
  | cons lp el ih =>
    intro bs
    rw [List.foldl_cons]
    obtain ⟨ih1, ih2⟩ := ih (stampLine p bs lp.1 lp.2)
    obtain ⟨h1, h2⟩ := stampLine_letters p bs lp.1 lp.2
    rw [List.map_cons, List.flatten_cons, ih1, ih2, h1, h2]
    simp

/-- **C10.** In `buildTextMask` every non-space character of every
(uppercased) input line — including characters with no glyph in the font —
contributes exactly one entry to `letters`/`letterMeta` (so an unknown
character shifts the global letter indices of all later letters), while an
unknown character is stamped through the all-off space glyph and so turns
on no mask cell; only `' '` is skipped (sentinel `-1`) and contributes no
letter. -/
theorem C10_unknown_chars_consume_letter_index :
    (∀ (lines : List (List Char)) (options : TextMaskOptions),
      (buildTextMask lines options).letters =
        ((lines.map (fun l => l.map Char.toUpper)).map
          (fun l => l.filter (fun c => !(c == ' ')))).flatten ∧
      (buildTextMask lines options).letterMeta.map LetterMeta.char =
        (buildTextMask lines options).letters) ∧
    (∀ (p : MaskParams) (li : ℕ) (st : LineState) (ch : Char),
      ¬ ch = ' ' → fontLookup ch = none →
      (stampChar p li st ch).bs.grid = st.bs.grid ∧
      (stampChar p li st ch).bs.letters = st.bs.letters ++ [ch] ∧
      (stampChar p li st ch).bs.letterCounter = st.bs.letterCounter + 1) ∧
    (∀ (p : MaskParams) (li : ℕ) (st : LineState),
      (stampChar p li st ' ').bs.letters = st.bs.letters ∧
      (stampChar p li st ' ').bs.letterCounter = st.bs.letterCounter) := by
  refine ⟨?_, ?_, ?_⟩
  · intro lines options
    constructor
    · show (buildTextMask lines options).letters = _
      simp only [buildTextMask]
      rw [(linesFold_letters _ _ _).1]
      simp only [List.nil_append]
      congr 1
      exact enum_map_snd_comp _ _
    · show _ = (buildTextMask lines options).letters
      simp only [buildTextMask]
      rw [(linesFold_letters _ _ _).1, (linesFold_letters _ _ _).2]
      simp
  · intro p li st ch hsp hfont
    refine ⟨?_, ?_, ?_⟩
    · simp [stampChar, hsp, hfont, stampGlyph_space]
    · simp [stampChar, hsp]
    · simp [stampChar, hsp]
  · intro p li st
    constructor <;> simp [stampChar]

/-- A concrete 6×7 geometry used by witnesses. -/
def wMaskParams : MaskParams :=
  { rows := 7, cols := 6, baseCharWidth := 6, baseCharHeight := 7, pixelScaleX := 1,
    pixelScaleY := 1, scaledCharWidth := 6, scaledCharHeight := 7, charSpacing := 2,
    lineSpacing := 2 }

/-- A concrete one-cell line state used by witnesses. -/
def wLineState : LineState :=
  { bs := { grid := { mask := [[false]], letterMap := [[-1]] }, letters := [],
            letterMeta := [], letterCounter := 0 },
    colCursor := 0, charPosition := 0 }

/-- Witness for C10's hypotheses: `'Q'` is not a space and has no glyph. -/
theorem C10_unknown_chars_witness :
    (stampChar wMaskParams 0 wLineState 'Q').bs.grid = wLineState.bs.grid ∧
    (stampChar wMaskParams 0 wLineState 'Q').bs.letters = wLineState.bs.letters ++ ['Q'] ∧
    (stampChar wMaskParams 0 wLineState 'Q').bs.letterCounter =
      wLineState.bs.letterCounter + 1 :=
  C10_unknown_chars_consume_letter_index.2.1 wMaskParams 0 wLineState 'Q'
    (by decide) (by decide)

/-! ### C2 — the fractional-density draw -/

lemma copyLoop_cursor (f : ℕ → ℚ) (jitter cw chh ox oy : ℚ)
    (letterMap : List (List ℤ)) (letterMeta : List LetterMeta) (row col : ℕ)
    (hli : ¬ (letterMap[row]?.getD []).getD col (-1) = -1) :
    ∀ (n : ℕ) (pts : List SpawnPoint) (k : ℕ),
      (copyLoop f jitter cw chh ox oy letterMap letterMeta row col n (pts, k)).2 = k + 2 * n := by
  intro n
  induction n with
  | zero => intro pts k; rfl
  | succ n ih =>
    intro pts k
    rw [copyLoop, if_neg hli]
    rw [ih]
    ring

/-- A one-cell mask (single "on" pixel belonging to letter 0). -/
def wMask1 : TextMaskResult :=
  { mask := [[true]], letterMap := [[0]], letters := ['A'],
    letterMeta := [{ lineIndex := 0, letterIndex := 0, char := 'A' }] }

/-- Concrete bounds used by witnesses. -/
def wBounds : MaskBounds :=
  { width := 10, height := 10, seed := some 7, jitter := some (1/10) }

/-- Normal form of `processCell` on an "on" cell. -/
lemma processCell_on (f : ℕ → ℚ) (density jitter cw chh ox oy : ℚ)
    (lm : List (List ℤ)) (lmeta : List LetterMeta) (row col : ℕ)
    (pts : List SpawnPoint) (k : ℕ) :
    processCell f density jitter cw chh ox oy lm lmeta row col true (pts, k) =
      (let fractional := max 0 (min 1 (density - ⌊density⌋))
       let k1 := if 0 < fractional then k + 1 else k
       let extra : ℤ := if 0 < fractional ∧ f k < fractional then 1 else 0
       let total := ⌊density⌋ + extra
       if total ≤ 0 then (pts, k1)
       else copyLoop f jitter cw chh ox oy lm lmeta row col total.toNat (pts, k1)) := by
  unfold processCell
  rw [if_neg (by decide : ¬ ((!true) = true))]
  dsimp only
  by_cases hf : 0 < max 0 (min 1 (density - ⌊density⌋))
  · by_cases hd : f k < max 0 (min 1 (density - ⌊density⌋))
    · simp only [if_pos hf, if_pos hd, if_pos (And.intro hf hd)]
    · simp only [if_pos hf, if_neg hd,
        if_neg (fun h : _ ∧ _ => hd h.2)]
  · simp only [if_neg hf, if_neg (fun h : _ ∧ _ => hf h.1)]

/-- **C2, counterexample.** On a mask with a single "on" cell the claim
predicts `1 + 2·copies = 3` PRNG draws for a whole `density = 1` (one
fractional-remainder draw plus two jitter draws).  The code's
`fractional > 0 && rng() < fractional` short-circuits, so only the two
jitter draws happen; with `density = 3/2` the fractional draw does happen
and the cell consumes three draws.  Hence the PRNG stream position seen by
later cells does depend on whether the density is whole. -/
theorem C2_counterexample_whole_density_skips_draw :
    (genFlowerPosAux (fun _ => (1 : ℚ)/2) wMask1 wBounds 1).2 = 2 ∧
    ¬ (genFlowerPosAux (fun _ => (1 : ℚ)/2) wMask1 wBounds 1).2 = 1 + 2 * 1 ∧
    (genFlowerPosAux (fun _ => (1 : ℚ)/2) wMask1 wBounds (3/2)).2 = 1 + 2 * 1 := by
  have h1 : (genFlowerPosAux (fun _ => (1 : ℚ)/2) wMask1 wBounds 1).2 = 2 := by
    norm_num [genFlowerPosAux, wMask1, wBounds, List.enum, List.enumFrom,
      processCell_on, copyLoop, metaAt]
  have h2 : (genFlowerPosAux (fun _ => (1 : ℚ)/2) wMask1 wBounds (3/2)).2 = 3 := by
    norm_num [genFlowerPosAux, wMask1, wBounds, List.enum, List.enumFrom,
      processCell_on, copyLoop, metaAt]
  refine ⟨h1, by omega, by rw [h2]⟩

/-- **C2, amended.** In `generateFlowerPositionsFromMask`, an "on" cell
consumes one PRNG draw for the fractional remainder **iff** `density` has
a positive fractional part (for a whole `density` the `&&` short-circuit
skips that draw), plus two jitter draws per generated copy.  So the PRNG
stream position seen by later cells' jitter draws is two-per-copy short of
the "always draw" behaviour whenever the density is whole. -/
theorem C2_fractional_draw_only_when_fractional (f : ℕ → ℚ)
    (density jitter cw chh ox oy : ℚ) (letterMap : List (List ℤ))
    (letterMeta : List LetterMeta) (row col : ℕ) (pts : List SpawnPoint) (k : ℕ)
    (hli : ¬ (letterMap[row]?.getD []).getD col (-1) = -1) :
    (processCell f density jitter cw chh ox oy letterMap letterMeta row col true (pts, k)).2 =
      if (⌊density⌋ : ℚ) = density then
        k + 2 * (⌊density⌋).toNat
      else
        k + 1 + 2 * (⌊density⌋ + if f k < density - ⌊density⌋ then 1 else 0).toNat := by
  have hfr : max 0 (min 1 (density - ⌊density⌋)) = density - ⌊density⌋ := by
    have h0 : (0 : ℚ) ≤ density - ⌊density⌋ := by
      have := Int.floor_le density
      linarith
    have h1 : density - ⌊density⌋ < 1 := by
      have := Int.lt_floor_add_one density
      linarith
    rw [min_eq_right h1.le, max_eq_right h0]
  rw [processCell_on]
  by_cases hw : (⌊density⌋ : ℚ) = density
  · have h0 : max 0 (min 1 (density - ⌊density⌋)) = 0 := by rw [hfr, hw]; ring
    rw [if_pos hw]
    simp only [h0, lt_self_iff_false, if_false, false_and, add_zero]
    by_cases hc : ⌊density⌋ ≤ 0
    · rw [if_pos hc]
      dsimp only
      omega
    · rw [if_neg hc]
      rw [copyLoop_cursor f jitter cw chh ox oy letterMap letterMeta row col hli]
  · have hpos : 0 < density - ⌊density⌋ := by
      rcases lt_or_le (⌊density⌋ : ℚ) density with h | h
      · linarith
      · exact absurd (le_antisymm h (Int.floor_le density)).symm hw
    rw [if_neg hw]
    simp only [hfr, hpos, if_true, true_and]
    by_cases hdraw : f k < density - ⌊density⌋
    · simp only [if_pos hdraw]
      by_cases hc : ⌊density⌋ + (1 : ℤ) ≤ 0
      · rw [if_pos hc]
        dsimp only
        omega
      · rw [if_neg hc]
        rw [copyLoop_cursor f jitter cw chh ox oy letterMap letterMeta row col hli]
    · simp only [if_neg hdraw]
      by_cases hc : ⌊density⌋ + (0 : ℤ) ≤ 0
      · rw [if_pos hc]
        dsimp only
        omega
      · rw [if_neg hc]
        rw [copyLoop_cursor f jitter cw chh ox oy letterMap letterMeta row col hli]

/-- Witness for C2\'s amended theorem at a concrete cell. -/
theorem C2_fractional_draw_witness :
    (processCell (fun _ => (1 : ℚ)/2) 1 (1/10) 1 1 0 0 [[0]]
        [{ lineIndex := 0, letterIndex := 0, char := 'A' }] 0 0 true ([], 0)).2 =
      if ((⌊(1 : ℚ)⌋ : ℚ) = 1) then 0 + 2 * (⌊(1 : ℚ)⌋).toNat
      else 0 + 1 + 2 * (⌊(1 : ℚ)⌋ +
        if (fun _ => (1 : ℚ)/2) 0 < 1 - ⌊(1 : ℚ)⌋ then 1 else 0).toNat :=
  C2_fractional_draw_only_when_fractional (fun _ => (1 : ℚ)/2) 1 (1/10) 1 1 0 0 [[0]]
    [{ lineIndex := 0, letterIndex := 0, char := 'A' }] 0 0 [] 0 (by decide)

/-! ### C6 — sunflower exclusion -/

lemma fallbackPool_ne_nil (enabled : List String) : fallbackPoolOf enabled ≠ [] := by
  unfold fallbackPoolOf basePoolOf
  rcases enabled with _ | ⟨a, l⟩
  · simp only [if_pos rfl]
    decide
  · simp only [if_neg (by simp : ¬ (a :: l = []))]
    split
    · simp
    · assumption

lemma mem_sanitized_ne_sunflower {s : String} {l : List String}
    (h : s ∈ l.filter (fun x => !(x == "sunflower"))) : ¬ s = "sunflower" := by
  have := List.of_mem_filter h
  simpa using this

lemma mem_fallback_sunflower {enabled : List String}
    (h : "sunflower" ∈ fallbackPoolOf enabled) :
    ∀ s ∈ basePoolOf enabled, s = "sunflower" := by
  unfold fallbackPoolOf at h
  by_cases hsan : (basePoolOf enabled).filter (fun x => !(x == "sunflower")) = []
  · intro s hs
    have := List.filter_eq_nil_iff.1 hsan s hs
    simpa using this
  · rw [if_neg hsan] at h
    exact absurd rfl (mem_sanitized_ne_sunflower h)

lemma mem_activePool_sunflower {letterMeta : List LetterMeta} {enabled : List String}
    {lineSpecies : List (List String)} {li : ℤ}
    (h : "sunflower" ∈ activePoolFor letterMeta enabled lineSpecies li) :
    ∀ s ∈ basePoolOf enabled, s = "sunflower" := by
  unfold activePoolFor at h
  set fb := fallbackPoolOf enabled with hfb
  set lineList := (match metaAt letterMeta li with
    | some m => (lineSpecies[m.lineIndex]?).getD fb
    | none => fb) with hll
  by_cases hf : (lineList.filter (fun s => !(s == "sunflower"))).filter
      (fun s => fb.contains s) = []
  · rw [if_pos hf] at h
    exact mem_fallback_sunflower h
  · rw [if_neg hf] at h
    have h2 := List.mem_of_mem_filter h
    exact absurd rfl (mem_sanitized_ne_sunflower h2)

lemma mem_perLetterPool {v : String} {ap : List String} {si : ℕ}
    (h : v ∈ perLetterPoolFor ap si) : v ∈ ap := by
  unfold perLetterPoolFor at h
  by_cases h3 : SPECIES_PER_LETTER ≤ ap.length
  · rw [if_pos h3] at h
    obtain ⟨i, _, hi⟩ := List.mem_map.1 h
    have hlen : 0 < ap.length := by
      have : (3 : ℕ) ≤ ap.length := h3
      omega
    have hlt : (si + i) % ap.length < ap.length := Nat.mod_lt _ hlen
    rw [← hi, List.getD_eq_getElem?_getD, List.getElem?_eq_getElem hlt]
    exact List.getElem_mem _
  · rw [if_neg h3] at h
    exact h

lemma assignOne_species_mem {letterMeta : List LetterMeta} {enabled : List String}
    {lineSpecies : List (List String)} {counters : ℤ → ℕ} {starts : ℤ → Option ℕ}
    {idx : ℕ} {point : SpawnPoint} {v : String}
    (h : (assignOne letterMeta enabled lineSpecies counters starts idx point).1.species
      = some v) :
    v ∈ activePoolFor letterMeta enabled lineSpecies point.letterIndex ∨
      v ∈ fallbackPoolOf enabled := by
  unfold assignOne at h
  simp only at h
  set ap := activePoolFor letterMeta enabled lineSpecies point.letterIndex with hap
  rcases h1 : (perLetterPoolFor ap
      (match starts point.letterIndex with
        | some s => (s, starts)
        | none =>
          (startIndexFor letterMeta enabled lineSpecies point.letterIndex idx,
            fun l => if l = point.letterIndex
              then some (startIndexFor letterMeta enabled lineSpecies point.letterIndex idx)
              else starts l)).1)[(counters point.letterIndex) %
        (perLetterPoolFor ap (match starts point.letterIndex with
          | some s => (s, starts)
          | none =>
            (startIndexFor letterMeta enabled lineSpecies point.letterIndex idx,
              fun l => if l = point.letterIndex
                then some (startIndexFor letterMeta enabled lineSpecies point.letterIndex idx)
                else starts l)).1).length]? with _ | w
  case _ =>
    rcases h2 : (ap[(counters point.letterIndex) % ap.length]?) with _ | w
    case _ =>
      rcases h3 : (fallbackPoolOf enabled)[idx % (fallbackPoolOf enabled).length]?
        with _ | w
      · rw [h1, h2, h3] at h
        simp [Option.orElse] at h
      · rw [h1, h2, h3] at h
        simp [Option.orElse] at h
        right
        rw [← h]
        exact List.getElem?_mem h3
    case _ =>
      rw [h1, h2] at h
      simp [Option.orElse] at h
      left
      rw [hap, ← h]
      exact List.getElem?_mem h2
  case _ =>
    rw [h1] at h
    simp [Option.orElse] at h
    left
    subst h
    exact mem_perLetterPool (List.getElem?_mem h1)

lemma assignLoop_species_sunflower {letterMeta : List LetterMeta} {enabled : List String}
    {lineSpecies : List (List String)} :
    ∀ (pts : List SpawnPoint) (counters : ℤ → ℕ) (starts : ℤ → Option ℕ) (idx : ℕ)
      (q : SpawnPoint),
      q ∈ assignLoop letterMeta enabled lineSpecies counters starts idx pts →
      q.species = some "sunflower" →
      ∀ s ∈ basePoolOf enabled, s = "sunflower" := by
  intro pts
  induction pts with
  | nil => intro counters starts idx q hq; simp [assignLoop] at hq
  | cons p rest ih =>
    intro counters starts idx q hq hs
    rw [assignLoop] at hq
    rcases List.mem_cons.1 hq with hq | hq
    · subst hq
      rcases assignOne_species_mem hs with h | h
      · exact mem_activePool_sunflower h
      · exact mem_fallback_sunflower h
    · exact ih _ _ _ q hq hs

/-- **C6.** The species assigned by `assignSpeciesToPoints` is never
`"sunflower"` unless no alternative exists: a point can only come out
carrying `species = "sunflower"` when every member of the effective
enabled pool (the caller's pool, or the default list when that is empty)
is `"sunflower"`. -/
theorem C6_sunflower_excluded (points : List SpawnPoint) (maskResult : TextMaskResult)
    (enabledSpecies : List String) (lineSpecies : List (List String)) (p : SpawnPoint)
    (hp : p ∈ assignSpeciesToPoints points maskResult enabledSpecies lineSpecies)
    (hs : p.species = some "sunflower") :
    ∀ s ∈ basePoolOf enabledSpecies, s = "sunflower" := by
  unfold assignSpeciesToPoints at hp
  rw [if_neg (fallbackPool_ne_nil enabledSpecies)] at hp
  exact assignLoop_species_sunflower points _ _ 0 p hp hs

/-- A concrete spawn point used by witnesses. -/
def wPt : SpawnPoint :=
  { x := 0, y := 0, row := 0, col := 0, pixelIndex := 0, letterIndex := 0,
    lineIndex := 0, letterChar := "A" }

lemma wC6_eval :
    assignSpeciesToPoints [wPt] wMask1 ["sunflower"] [["sunflower"]] =
      [{ wPt with species := some "sunflower" }] := rfl

/-- Witness for C6 at a pool containing only `"sunflower"`. -/
theorem C6_sunflower_witness : (basePoolOf ["sunflower"]).getD 0 "" = "sunflower" :=
  C6_sunflower_excluded [wPt] wMask1 ["sunflower"] [["sunflower"]]
    { wPt with species := some "sunflower" }
    (by rw [wC6_eval]; exact List.mem_singleton.2 rfl) rfl
    ((basePoolOf ["sunflower"]).getD 0 "") (by decide)

/-! ### C7 — letter-local variety -/

lemma perLetterPool_length {ap : List String} (h3 : 3 ≤ ap.length) (s : ℕ) :
    (perLetterPoolFor ap s).length = 3 := by
  unfold perLetterPoolFor SPECIES_PER_LETTER
  rw [if_pos h3]
  simp

lemma startIndexFor_meta {letterMeta : List LetterMeta} {enabled : List String}
    {lineSpecies : List (List String)} {li : ℤ} {mm : LetterMeta}
    (hmeta : metaAt letterMeta li = some mm) (idx : ℕ) :
    startIndexFor letterMeta enabled lineSpecies li idx =
      mm.letterIndex % (activePoolFor letterMeta enabled lineSpecies li).length := by
  unfold startIndexFor
  rw [hmeta]

lemma assignOne_fst_letterIndex (letterMeta : List LetterMeta) (enabled : List String)
    (lineSpecies : List (List String)) (counters : ℤ → ℕ) (starts : ℤ → Option ℕ)
    (idx : ℕ) (p : SpawnPoint) :
    (assignOne letterMeta enabled lineSpecies counters starts idx p).1.letterIndex =
      p.letterIndex := by
  rcases h : starts p.letterIndex with _ | s <;> simp [assignOne, h]

lemma assignOne_counters (letterMeta : List LetterMeta) (enabled : List String)
    (lineSpecies : List (List String)) (counters : ℤ → ℕ) (starts : ℤ → Option ℕ)
    (idx : ℕ) (p : SpawnPoint) (l : ℤ) :
    (assignOne letterMeta enabled lineSpecies counters starts idx p).2.1 l =
      if l = p.letterIndex then counters p.letterIndex + 1 else counters l := by
  rcases h : starts p.letterIndex with _ | s <;> simp [assignOne, h]

lemma assignOne_starts_ne (letterMeta : List LetterMeta) (enabled : List String)
    (lineSpecies : List (List String)) (counters : ℤ → ℕ) (starts : ℤ → Option ℕ)
    (idx : ℕ) (p : SpawnPoint) (l : ℤ) (hne : ¬ l = p.letterIndex) :
    (assignOne letterMeta enabled lineSpecies counters starts idx p).2.2 l = starts l := by
  rcases h : starts p.letterIndex with _ | s <;> simp [assignOne, h, hne]

lemma assignOne_starts_self {letterMeta : List LetterMeta} {enabled : List String}
    {lineSpecies : List (List String)} {counters : ℤ → ℕ} {starts : ℤ → Option ℕ}
    {idx : ℕ} {p : SpawnPoint} {mm : LetterMeta}
    (hmeta : metaAt letterMeta p.letterIndex = some mm)
    (hst : starts p.letterIndex = none ∨ starts p.letterIndex =
      some (mm.letterIndex % (activePoolFor letterMeta enabled lineSpecies p.letterIndex).length)) :
    (assignOne letterMeta enabled lineSpecies counters starts idx p).2.2 p.letterIndex =
      some (mm.letterIndex %
        (activePoolFor letterMeta enabled lineSpecies p.letterIndex).length) := by
  rcases hst with h | h
  · simp [assignOne, h, startIndexFor_meta hmeta]
  · simp [assignOne, h]

lemma assignOne_species_at {letterMeta : List LetterMeta} {enabled : List String}
    {lineSpecies : List (List String)} {counters : ℤ → ℕ} {starts : ℤ → Option ℕ}
    {idx : ℕ} {p : SpawnPoint} {mm : LetterMeta}
    (hmeta : metaAt letterMeta p.letterIndex = some mm)
    (h3 : 3 ≤ (activePoolFor letterMeta enabled lineSpecies p.letterIndex).length)
    (hst : starts p.letterIndex = none ∨ starts p.letterIndex =
      some (mm.letterIndex % (activePoolFor letterMeta enabled lineSpecies p.letterIndex).length)) :
    (assignOne letterMeta enabled lineSpecies counters starts idx p).1.species =
      (perLetterPoolFor (activePoolFor letterMeta enabled lineSpecies p.letterIndex)
        (mm.letterIndex % (activePoolFor letterMeta enabled lineSpecies p.letterIndex).length))[
          (counters p.letterIndex) % 3]? := by
  set ap := activePoolFor letterMeta enabled lineSpecies p.letterIndex with hap
  set s0 := mm.letterIndex % ap.length with hs0
  have hw3 : (perLetterPoolFor ap s0).length = 3 := perLetterPool_length h3 s0
  have hlt : (counters p.letterIndex) % 3 < (perLetterPoolFor ap s0).length := by
    rw [hw3]
    exact Nat.mod_lt _ (by omega)
  have hsome : (perLetterPoolFor ap s0)[(counters p.letterIndex) % 3]? =
      some ((perLetterPoolFor ap s0).get ⟨(counters p.letterIndex) % 3, hlt⟩) := by
    rw [List.getElem?_eq_getElem hlt]
    simp [List.get_eq_getElem]
  rcases hst with h | h
  · simp only [assignOne, h, startIndexFor_meta hmeta, ← hap, ← hs0]
    simp only [hw3, hsome]
    simp [Option.orElse]
  · simp only [assignOne, h, ← hap, ← hs0]
    simp only [hw3, hsome]
    simp [Option.orElse]

lemma assignLoop_letter_species {letterMeta : List LetterMeta} {enabled : List String}
    {lineSpecies : List (List String)} {L : ℤ} {mm : LetterMeta}
    (hmeta : metaAt letterMeta L = some mm)
    (h3 : 3 ≤ (activePoolFor letterMeta enabled lineSpecies L).length) :
    ∀ (pts : List SpawnPoint) (counters : ℤ → ℕ) (starts : ℤ → Option ℕ) (idx : ℕ),
      (starts L = none ∨ starts L =
        some (mm.letterIndex % (activePoolFor letterMeta enabled lineSpecies L).length)) →
      ((assignLoop letterMeta enabled lineSpecies counters starts idx pts).filter
        (fun q => q.letterIndex == L)).map SpawnPoint.species =
      (List.range ((pts.filter (fun q => q.letterIndex == L)).length)).map
        (fun j => (perLetterPoolFor (activePoolFor letterMeta enabled lineSpecies L)
          (mm.letterIndex % (activePoolFor letterMeta enabled lineSpecies L).length))[
            (counters L + j) % 3]?) := by
  intro pts
  induction pts with
  | nil => intro counters starts idx hst; simp [assignLoop]
  | cons p rest ih =>
    intro counters starts idx hst
    rw [assignLoop]
    by_cases hL : p.letterIndex = L
    · subst hL
      have hfilter : ((assignOne letterMeta enabled lineSpecies counters starts idx p).1 ::
          assignLoop letterMeta enabled lineSpecies
            (assignOne letterMeta enabled lineSpecies counters starts idx p).2.1
            (assignOne letterMeta enabled lineSpecies counters starts idx p).2.2
            (idx + 1) rest).filter (fun q => q.letterIndex == p.letterIndex) =
          (assignOne letterMeta enabled lineSpecies counters starts idx p).1 ::
          (assignLoop letterMeta enabled lineSpecies
            (assignOne letterMeta enabled lineSpecies counters starts idx p).2.1
            (assignOne letterMeta enabled lineSpecies counters starts idx p).2.2
            (idx + 1) rest).filter (fun q => q.letterIndex == p.letterIndex) := by
        rw [List.filter_cons,
          if_pos (by simp [assignOne_fst_letterIndex])]
      rw [hfilter, List.map_cons]
      have hcnt : (assignOne letterMeta enabled lineSpecies counters starts idx p).2.1
          p.letterIndex = counters p.letterIndex + 1 := by
        rw [assignOne_counters]
        simp
      have hstarts := @assignOne_starts_self letterMeta enabled lineSpecies counters
        starts idx p mm hmeta hst
      have ihr := ih ((assignOne letterMeta enabled lineSpecies counters starts idx p).2.1)
        ((assignOne letterMeta enabled lineSpecies counters starts idx p).2.2) (idx + 1)
        (Or.inr hstarts)
      rw [ihr, hcnt]
      rw [List.filter_cons, if_pos (by simp)]
      rw [List.length_cons, List.range_succ_eq_map, List.map_cons, List.map_map]
      rw [assignOne_species_at hmeta h3 hst]
      congr 1
      apply List.map_congr_left
      intro j _
      have hj : counters p.letterIndex + 1 + j = counters p.letterIndex + (j + 1) := by omega
      simp [Function.comp, hj]
    · have hfilter1 : ((assignOne letterMeta enabled lineSpecies counters starts idx p).1 ::
          assignLoop letterMeta enabled lineSpecies
            (assignOne letterMeta enabled lineSpecies counters starts idx p).2.1
            (assignOne letterMeta enabled lineSpecies counters starts idx p).2.2
            (idx + 1) rest).filter (fun q => q.letterIndex == L) =
          (assignLoop letterMeta enabled lineSpecies
            (assignOne letterMeta enabled lineSpecies counters starts idx p).2.1
            (assignOne letterMeta enabled lineSpecies counters starts idx p).2.2
            (idx + 1) rest).filter (fun q => q.letterIndex == L) := by
        rw [List.filter_cons, if_neg (by simp [assignOne_fst_letterIndex, hL])]
      rw [hfilter1]
      have hcnt : (assignOne letterMeta enabled lineSpecies counters starts idx p).2.1 L =
          counters L := by
        rw [assignOne_counters, if_neg (fun h => hL h.symm)]
      have hstL : (assignOne letterMeta enabled lineSpecies counters starts idx p).2.2 L =
          starts L :=
        assignOne_starts_ne _ _ _ _ _ _ _ _ (fun h => hL h.symm)
      have ihr := ih ((assignOne letterMeta enabled lineSpecies counters starts idx p).2.1)
        ((assignOne letterMeta enabled lineSpecies counters starts idx p).2.2) (idx + 1)
        (by rw [hstL]; exact hst)
      rw [ihr, hcnt]
      rw [List.filter_cons, if_neg (by simp [hL])]

lemma perLetterPool_nodup {ap : List String} (hnd : ap.Nodup) (h3 : 3 ≤ ap.length)
    (s : ℕ) : (perLetterPoolFor ap s).Nodup := by
  unfold perLetterPoolFor SPECIES_PER_LETTER
  rw [if_pos h3]
  have hlen : 0 < ap.length := by omega
  refine List.Nodup.map_on ?_ (List.nodup_range 3)
  intro i hi i' hi' heq
  rw [List.mem_range] at hi hi'
  rw [List.getD_eq_getElem?_getD, List.getD_eq_getElem?_getD,
    List.getElem?_eq_getElem (Nat.mod_lt _ hlen),
    List.getElem?_eq_getElem (Nat.mod_lt _ hlen)] at heq
  simp only [Option.getD_some] at heq
  have hidx : (s + i) % ap.length = (s + i') % ap.length :=
    (List.Nodup.getElem_inj_iff hnd).1 heq
  have h2 : i ≡ i' [MOD ap.length] := Nat.ModEq.add_left_cancel' s hidx
  have h3i : i % ap.length = i := Nat.mod_eq_of_lt (by omega)
  have h3i' : i' % ap.length = i' := Nat.mod_eq_of_lt (by omega)
  unfold Nat.ModEq at h2
  omega

lemma getElem?_range_map {α : Type} (g : ℕ → α) {n j : ℕ} {v : α}
    (h : ((List.range n).map g)[j]? = some v) : j < n ∧ v = g j := by
  rcases List.getElem?_eq_some_iff.1 h with ⟨hlt, hval⟩
  rw [List.length_map, List.length_range] at hlt
  refine ⟨hlt, ?_⟩
  rw [List.getElem_map, List.getElem_range] at hval
  exact hval.symm

/-- **C7, amended.** Letter-local variety holds when the letter's effective
species pool (the code's `activePool`, the filtered line palette) has at
least 3 entries **that are pairwise distinct**: then no 3 consecutive
spawn points of that letter (by occurrence order) share a species (in
fact even no 2 consecutive do).  The distinctness condition is the part
the original claim lacks: the palette list may contain duplicate entries,
and then a pool of size ≥ 3 does not prevent repeats. -/
theorem C7_letter_local_variety (points : List SpawnPoint) (mres : TextMaskResult)
    (enabled : List String) (lineSpecies : List (List String)) (L : ℤ) (mm : LetterMeta)
    (hmeta : metaAt mres.letterMeta L = some mm)
    (h3 : 3 ≤ (activePoolFor mres.letterMeta enabled lineSpecies L).length)
    (hnd : (activePoolFor mres.letterMeta enabled lineSpecies L).Nodup) :
    ∀ (j : ℕ) (a b c : SpawnPoint),
      ((assignSpeciesToPoints points mres enabled lineSpecies).filter
        (fun q => q.letterIndex == L))[j]? = some a →
      ((assignSpeciesToPoints points mres enabled lineSpecies).filter
        (fun q => q.letterIndex == L))[j + 1]? = some b →
      ((assignSpeciesToPoints points mres enabled lineSpecies).filter
        (fun q => q.letterIndex == L))[j + 2]? = some c →
      ¬ (a.species = b.species ∧ b.species = c.species) := by
  intro j a b c ha hb hc hcon
  have heq : assignSpeciesToPoints points mres enabled lineSpecies =
      assignLoop mres.letterMeta enabled lineSpecies (fun _ => 0) (fun _ => none) 0 points := by
    unfold assignSpeciesToPoints
    rw [if_neg (fallbackPool_ne_nil _)]
  have hmap := assignLoop_letter_species hmeta h3 points (fun _ => 0) (fun _ => none) 0
    (Or.inl rfl)
  rw [← heq] at hmap
  have hsp : ∀ (i : ℕ) (q : SpawnPoint),
      ((assignSpeciesToPoints points mres enabled lineSpecies).filter
        (fun x => x.letterIndex == L))[i]? = some q →
      q.species = (perLetterPoolFor (activePoolFor mres.letterMeta enabled lineSpecies L)
        (mm.letterIndex % (activePoolFor mres.letterMeta enabled lineSpecies L).length))[
          i % 3]? := by
    intro i q hq
    have h1 : (((assignSpeciesToPoints points mres enabled lineSpecies).filter
        (fun x => x.letterIndex == L)).map SpawnPoint.species)[i]? = some q.species := by
      rw [List.getElem?_map, hq]
      rfl
    rw [hmap] at h1
    obtain ⟨_, hv⟩ := getElem?_range_map _ h1
    simpa using hv
  have ha' := hsp j a ha
  have hb' := hsp (j + 1) b hb
  have hw3 : (perLetterPoolFor (activePoolFor mres.letterMeta enabled lineSpecies L)
      (mm.letterIndex % (activePoolFor mres.letterMeta enabled lineSpecies L).length)).length
      = 3 := perLetterPool_length h3 _
  have hwnd := perLetterPool_nodup hnd h3
    (mm.letterIndex % (activePoolFor mres.letterMeta enabled lineSpecies L).length)
  have hltj : j % 3 < (perLetterPoolFor (activePoolFor mres.letterMeta enabled lineSpecies L)
      (mm.letterIndex % (activePoolFor mres.letterMeta enabled lineSpecies L).length)).length := by
    rw [hw3]
    exact Nat.mod_lt _ (by omega)
  have hltj1 : (j + 1) % 3 <
      (perLetterPoolFor (activePoolFor mres.letterMeta enabled lineSpecies L)
        (mm.letterIndex %
          (activePoolFor mres.letterMeta enabled lineSpecies L).length)).length := by
    rw [hw3]
    exact Nat.mod_lt _ (by omega)
  have hab : (perLetterPoolFor (activePoolFor mres.letterMeta enabled lineSpecies L)
      (mm.letterIndex % (activePoolFor mres.letterMeta enabled lineSpecies L).length))[j % 3]?
      = (perLetterPoolFor (activePoolFor mres.letterMeta enabled lineSpecies L)
        (mm.letterIndex %
          (activePoolFor mres.letterMeta enabled lineSpecies L).length))[(j + 1) % 3]? := by
    rw [← ha', ← hb']
    exact hcon.1
  rw [List.getElem?_eq_getElem hltj, List.getElem?_eq_getElem hltj1] at hab
  have hmod : j % 3 = (j + 1) % 3 :=
    (List.Nodup.getElem_inj_iff hwnd).1 (Option.some.inj hab)
  omega

/-- Three spawn points of the same letter, used by the C7 theorems. -/
def wPts3 : List SpawnPoint :=
  [wPt, { wPt with pixelIndex := 1 }, { wPt with pixelIndex := 2 }]

/-- **C7, counterexample.** With the palette `["rose","rose","rose"]` the
letter's effective pool (`activePool`) has length 3 — so the original
claim's size hypothesis holds — yet the letter's 3 consecutive spawn
points (a letter that receives exactly 3 points) are all assigned
`"rose"`. -/
theorem C7_counterexample_duplicate_palette :
    (activePoolFor wMask1.letterMeta ["rose"] [["rose", "rose", "rose"]] 0).length = 3 ∧
    ((assignSpeciesToPoints wPts3 wMask1 ["rose"] [["rose", "rose", "rose"]]).filter
      (fun q => q.letterIndex == 0)).map SpawnPoint.species =
      [some "rose", some "rose", some "rose"] := by
  constructor
  · rfl
  · rfl

lemma wC7_eval :
    (assignSpeciesToPoints wPts3 wMask1 ["rose", "lily", "peony"]
      [["rose", "lily", "peony"]]).filter (fun q => q.letterIndex == 0) =
    [{ wPt with species := some "rose" },
     { wPt with pixelIndex := 1, species := some "lily" },
     { wPt with pixelIndex := 2, species := some "peony" }] := rfl

/-- Witness for C7's amended theorem on a duplicate-free 3-species palette. -/
theorem C7_letter_local_variety_witness :
    ¬ (({ wPt with species := some "rose" } : SpawnPoint).species =
        ({ wPt with pixelIndex := 1, species := some "lily" } : SpawnPoint).species ∧
      ({ wPt with pixelIndex := 1, species := some "lily" } : SpawnPoint).species =
        ({ wPt with pixelIndex := 2, species := some "peony" } : SpawnPoint).species) :=
  C7_letter_local_variety wPts3 wMask1 ["rose", "lily", "peony"] [["rose", "lily", "peony"]]
    0 { lineIndex := 0, letterIndex := 0, char := 'A' } rfl (by decide) (by decide) 0
    { wPt with species := some "rose" }
    { wPt with pixelIndex := 1, species := some "lily" }
    { wPt with pixelIndex := 2, species := some "peony" }
    (by rw [wC7_eval]; rfl) (by rw [wC7_eval]; rfl) (by rw [wC7_eval]; rfl)

/-! ### C4 — the shuffled permutation and the grid trace -/

lemma pick_front : ∀ (xs : List ℕ) (m : ℕ) (x : ℕ), m < xs.length →
    List.Perm (xs.getD m 0 :: xs.set m x) (x :: xs) := by
  intro xs
  induction xs with
  | nil => intro m x hm; simp at hm
  | cons y ys ih =>
    intro m x hm
    cases m with
    | zero =>
      simp only [List.getD_cons_zero, List.set_cons_zero]
      exact List.Perm.swap x y ys
    | succ m =>
      simp only [List.getD_cons_succ, List.set_cons_succ]
      have hm' : m < ys.length := by simpa using hm
      have h1 : List.Perm (ys.getD m 0 :: y :: ys.set m x)
          (y :: ys.getD m 0 :: ys.set m x) := List.Perm.swap y (ys.getD m 0) _
      have h2 := (ih m x hm').cons y
      have h3 : List.Perm (y :: x :: ys) (x :: y :: ys) := List.Perm.swap x y ys
      exact (h1.trans h2).trans h3

lemma swapAt_perm : ∀ (l : List ℕ) (i j : ℕ), i < l.length → j < l.length →
    List.Perm (swapAt l i j) l := by
  intro l
  induction l with
  | nil => intro i j hi; simp at hi
  | cons x xs ih =>
    intro i j hi hj
    cases i with
    | zero =>
      cases j with
      | zero => simp [swapAt]
      | succ m =>
        have hm : m < xs.length := by simpa using hj
        simp only [swapAt, List.getD_cons_zero, List.getD_cons_succ,
          List.set_cons_zero, List.set_cons_succ]
        exact pick_front xs m x hm
    | succ n =>
      cases j with
      | zero =>
        have hn : n < xs.length := by simpa using hi
        simp only [swapAt, List.getD_cons_zero, List.getD_cons_succ,
          List.set_cons_succ, List.set_cons_zero]
        exact pick_front xs n x hn
      | succ m =>
        have hn : n < xs.length := by simpa using hi
        have hm : m < xs.length := by simpa using hj
        simp only [swapAt, List.getD_cons_succ, List.set_cons_succ]
        exact (ih n m hn hm).cons x

lemma swapAt_length (l : List ℕ) (i j : ℕ) : (swapAt l i j).length = l.length := by
  simp [swapAt]

lemma fyAux_perm (f : ℕ → ℚ) (hf : StreamOk f) :
    ∀ (i k : ℕ) (l : List ℕ), i < l.length → List.Perm (fyAux f i k l).1 l := by
  intro i
  induction i with
  | zero => intro k l _; exact List.Perm.refl l
  | succ i ih =>
    intro k l hi
    have hfk := hf k
    have hjle : (⌊f k * ((i : ℚ) + 2)⌋).toNat ≤ i + 1 := by
      have hlt : f k * ((i : ℚ) + 2) < ((i : ℚ) + 2) := by
        have h2 : (0 : ℚ) < (i : ℚ) + 2 := by positivity
        nlinarith [hfk.1, hfk.2]
      have : ⌊f k * ((i : ℚ) + 2)⌋ < (i : ℤ) + 2 := by
        rw [Int.floor_lt]
        push_cast
        exact hlt
      omega
    have hjlt : (⌊f k * ((i : ℚ) + 2)⌋).toNat < l.length := by omega
    rw [fyAux]
    have hlen : (swapAt l (i + 1) (⌊f k * ((i : ℚ) + 2)⌋).toNat).length = l.length :=
      swapAt_length _ _ _
    have ihp := ih (k + 1) (swapAt l (i + 1) (⌊f k * ((i : ℚ) + 2)⌋).toNat)
      (by rw [hlen]; omega)
    exact ihp.trans (swapAt_perm l (i + 1) (⌊f k * ((i : ℚ) + 2)⌋).toNat hi hjlt)

lemma totalCells_pos : 0 < totalCells := by decide

lemma shuffled_perm {f : ℕ → ℚ} (hf : StreamOk f) :
    List.Perm (shuffledIndices f).1 (List.range totalCells) := by
  unfold shuffledIndices
  exact fyAux_perm f hf (totalCells - 1) 0 (List.range totalCells)
    (by rw [List.length_range]; have := totalCells_pos; omega)

lemma shuffled_nodup {f : ℕ → ℚ} (hf : StreamOk f) : (shuffledIndices f).1.Nodup :=
  ((shuffled_perm hf).nodup_iff).2 (List.nodup_range totalCells)

/-- The number of non-message days among days `i, …, i+m-1`. -/
def ordinaryDays (lookup : ℕ → Option TextFlowerSlot) (i m : ℕ) : ℕ :=
  ((List.range' i m).filter (fun d => (lookup d).isNone)).length

/-- The grid cell a shuffled-grid placement was generated from, recovered
from its coordinates (`⌊x/cellW⌋` is the column, `⌊y/cellH⌋` the row). -/
def ordinaryCellOf (p : FlowerData) : ℤ := (COLS : ℤ) * ⌊p.y / cellH⌋ + ⌊p.x / cellW⌋

lemma floor_cell_recover {col : ℕ} {r cw : ℚ} (hr0 : 0 ≤ r) (hr1 : r < 1)
    (hcw : cw ≠ 0) : ⌊((col : ℚ) * cw + r * cw) / cw⌋ = col := by
  have hdiv : ((col : ℚ) * cw + r * cw) / cw = (col : ℚ) + r := by
    field_simp
    ring
  rw [hdiv]
  rw [Int.floor_eq_iff]
  push_cast
  constructor <;> linarith

lemma cellOf_mkGrid {f : ℕ → ℚ} (hf : StreamOk f) (svgs : List String)
    (i k ci : ℕ) : ordinaryCellOf (mkGridFlower f svgs i k ci) = ci := by
  have hcw : cellW ≠ 0 := by norm_num [cellW, COLS]
  have hch : cellH ≠ 0 := by norm_num [cellH, ROWS]
  unfold ordinaryCellOf mkGridFlower
  simp only
  rw [floor_cell_recover (hf (k + 1)).1 (hf (k + 1)).2 hch,
    floor_cell_recover (hf k).1 (hf k).2 hcw]
  exact_mod_cast Nat.div_add_mod ci COLS

lemma gardenLoop_trace (f : ℕ → ℚ) (svgs : List String)
    (lookup : ℕ → Option TextFlowerSlot) (indices : List ℕ) (hf : StreamOk f)
    (hlen : indices.length = totalCells) :
    ∀ (m i k used : ℕ),
      used + ordinaryDays lookup i m ≤ totalCells →
      ((gardenLoop f svgs lookup indices i k used m).filter
        (fun p => p.textSetId.isNone)).map ordinaryCellOf =
      ((indices.drop used).take (ordinaryDays lookup i m)).map (Nat.cast : ℕ → ℤ) := by
  intro m
  induction m with
  | zero => intro i k used _; simp [gardenLoop, ordinaryDays]
  | succ m ih =>
    intro i k used hbound
    have hdays : ordinaryDays lookup i (m + 1) =
        (if (lookup i).isNone then 1 else 0) + ordinaryDays lookup (i + 1) m := by
      unfold ordinaryDays
      rw [List.range'_succ, List.filter_cons]
      split <;> simp <;> omega
    cases h : lookup i with
    | some slot =>
      have hnone : (lookup i).isNone = false := by rw [h]; rfl
      have hdays0 : ordinaryDays lookup i (m + 1) = ordinaryDays lookup (i + 1) m := by
        rw [hdays, hnone]
        simp
      rw [gardenLoop]
      simp only [h]
      rw [List.filter_cons, if_neg (by simp [mkMessageFlower])]
      rw [hdays0] at hbound ⊢
      exact ih (i + 1) k used hbound
    | none =>
      have hnone : (lookup i).isNone = true := by rw [h]; rfl
      have hdays1 : ordinaryDays lookup i (m + 1) = ordinaryDays lookup (i + 1) m + 1 := by
        rw [hdays, hnone]
        simp
        omega
      rw [hdays1] at hbound ⊢
      have hu : used < totalCells := by omega
      rw [gardenLoop]
      simp only [h, if_pos hu]
      rw [List.filter_cons, if_pos (by simp [mkGridFlower])]
      rw [List.map_cons]
      rw [cellOf_mkGrid hf]
      have hu' : used < indices.length := by omega
      rw [List.drop_eq_getElem_cons hu']
      rw [List.take_succ_cons, List.map_cons]
      have hgd : indices.getD used 0 = indices[used] := by
        rw [List.getD_eq_getElem?_getD, List.getElem?_eq_getElem hu']
        rfl
      rw [hgd]
      have := ih (i + 1) (k + 5) (used + 1) (by omega)
      rw [this]

/-- **C4.** No grid collision: as long as unconsumed grid cells remain
(at most `totalCells = 64·56` non-message days requested), the source
cells of the ordinary (non-message) placements of one `generateGarden`
call are exactly the first entries, in order, of the Fisher–Yates-shuffled
permutation of `[0, totalCells)` — in particular they are pairwise
distinct. -/
theorem C4_no_grid_collision (rngOf : RngFamily) (svgs : List String) (count : ℤ)
    (textSets : List TextSetConfig) (hf : FamilyOk rngOf)
    (hord : ordinaryDays (slotMapOf (precomputeTextFlowers rngOf svgs textSets)) 0
      count.toNat ≤ totalCells) :
    ((generateGarden rngOf svgs count textSets).filter
        (fun p => p.textSetId.isNone)).map ordinaryCellOf =
      ((shuffledIndices (rngOf SEED)).1.take
        (ordinaryDays (slotMapOf (precomputeTextFlowers rngOf svgs textSets)) 0
          count.toNat)).map (Nat.cast : ℕ → ℤ) ∧
    (((generateGarden rngOf svgs count textSets).filter
        (fun p => p.textSetId.isNone)).map ordinaryCellOf).Nodup := by
  have hperm := shuffled_perm (hf SEED)
  have hlen : (shuffledIndices (rngOf SEED)).1.length = totalCells := by
    rw [hperm.length_eq, List.length_range]
  have htr := gardenLoop_trace (rngOf SEED) svgs
    (slotMapOf (precomputeTextFlowers rngOf svgs textSets))
    (shuffledIndices (rngOf SEED)).1 (hf SEED) hlen count.toNat 0
    (shuffledIndices (rngOf SEED)).2 0 (by simpa using hord)
  rw [List.drop_zero] at htr
  have hmain : ((generateGarden rngOf svgs count textSets).filter
      (fun p => p.textSetId.isNone)).map ordinaryCellOf =
      ((shuffledIndices (rngOf SEED)).1.take
        (ordinaryDays (slotMapOf (precomputeTextFlowers rngOf svgs textSets)) 0
          count.toNat)).map (Nat.cast : ℕ → ℤ) := by
    unfold generateGarden
    exact htr
  refine ⟨hmain, ?_⟩
  rw [hmain]
  have hnd : ((shuffledIndices (rngOf SEED)).1.take
      (ordinaryDays (slotMapOf (precomputeTextFlowers rngOf svgs textSets)) 0
        count.toNat)).Nodup :=
    (shuffled_nodup (hf SEED)).sublist (List.take_sublist _ _)
  exact List.Nodup.map Nat.cast_injective hnd

/-- The constant stream `1/2`, a well-formed PRNG family for witnesses. -/
def wRng : RngFamily := fun _ _ => 1/2

lemma wRng_ok : FamilyOk wRng := by
  intro s n
  constructor <;> norm_num [wRng]

/-- Witness for C4 with five ordinary days and no message configs. -/
theorem C4_no_grid_collision_witness :
    ((generateGarden wRng [] 5 []).filter (fun p => p.textSetId.isNone)).map
        ordinaryCellOf =
      ((shuffledIndices (wRng SEED)).1.take
        (ordinaryDays (slotMapOf (precomputeTextFlowers wRng [] [])) 0
          (5 : ℤ).toNat)).map (Nat.cast : ℕ → ℤ) ∧
    (((generateGarden wRng [] 5 []).filter (fun p => p.textSetId.isNone)).map
        ordinaryCellOf).Nodup :=
  C4_no_grid_collision wRng [] 5 [] wRng_ok (by decide)

/-! ### Slot-map lemmas (C5, C9) -/

lemma foldl_set_lookup : ∀ (l : List TextFlowerSlot) (m : ℕ → Option TextFlowerSlot) (d : ℕ),
    (l.foldl (fun m s => fun d' => if d' = s.dayIndex then some s else m d') m) d =
      match (l.filter (fun s => d == s.dayIndex)).getLast? with
      | some s => some s
      | none => m d := by
  intro l
  induction l with
  | nil => intro m d; rfl
  | cons s l ih =>
    intro m d
    rw [List.foldl_cons, ih, List.filter_cons]
    by_cases hpd : d = s.dayIndex
    · have hb : (d == s.dayIndex) = true := by simpa using hpd
      rw [if_pos hb]
      rcases hfl : l.filter (fun s => d == s.dayIndex) with _ | ⟨t, ts⟩
      · rw [hfl]
        simp only [List.getLast?_nil, List.getLast?_singleton]
        rw [if_pos hpd]
      · rw [hfl, List.getLast?_cons_cons]
        rcases hgl : (t :: ts).getLast? with _ | u
        · simp at hgl
        · simp only [hgl]
    · have hb : ¬ ((d == s.dayIndex) = true) := by simpa using hpd
      rw [if_neg hb]
      rcases hfl : l.filter (fun s => d == s.dayIndex) with _ | ⟨t, ts⟩
      · rw [hfl]
        simp only [List.getLast?_nil]
        rw [if_neg hpd]
      · rw [hfl]
        rcases hgl : (t :: ts).getLast? with _ | u
        · simp at hgl
        · simp only [hgl]

lemma slotMapOf_eq (l : List TextFlowerSlot) (d : ℕ) :
    slotMapOf l d = (l.filter (fun s => d == s.dayIndex)).getLast? := by
  unfold slotMapOf
  rw [foldl_set_lookup]
  rcases hgl : (l.filter (fun s => d == s.dayIndex)).getLast? with _ | s <;> simp [hgl]

/-- Sortedness by `dayIndex` (non-decreasing). -/
def SlotsSorted (l : List TextFlowerSlot) : Prop :=
  List.Pairwise (fun a b => a.dayIndex ≤ b.dayIndex) l

lemma mem_insertSlot {x a : TextFlowerSlot} :
    ∀ {l : List TextFlowerSlot}, x ∈ insertSlot a l ↔ x = a ∨ x ∈ l := by
  intro l
  induction l with
  | nil => simp [insertSlot]
  | cons b t ih =>
    rw [insertSlot]
    split
    · rw [List.mem_cons, ih]
      simp [List.mem_cons]
      tauto
    · simp [List.mem_cons]

lemma insertSlot_sorted (a : TextFlowerSlot) :
    ∀ {l : List TextFlowerSlot}, SlotsSorted l → SlotsSorted (insertSlot a l) := by
  intro l
  induction l with
  | nil => intro _; exact List.pairwise_singleton _ _
  | cons b t ih =>
    intro h
    rw [insertSlot]
    rcases List.pairwise_cons.1 h with ⟨hb, ht⟩
    split
    · refine List.pairwise_cons.2 ⟨?_, ih ht⟩
      intro x hx
      rcases mem_insertSlot.1 hx with rfl | hx
      · omega
      · exact hb x hx
    · refine List.pairwise_cons.2 ⟨?_, h⟩
      intro x hx
      rcases List.mem_cons.1 hx with rfl | hx
      · omega
      · have := hb x hx
        omega

lemma filter_day_lt {d : ℕ} : ∀ {l : List TextFlowerSlot}, SlotsSorted l →
    (∀ x ∈ l, d < x.dayIndex) → l.filter (fun s => d == s.dayIndex) = [] := by
  intro l _ hall
  rw [List.filter_eq_nil_iff]
  intro x hx
  have := hall x hx
  simp
  omega

lemma filter_day_insertSlot (d : ℕ) (a : TextFlowerSlot) :
    ∀ {l : List TextFlowerSlot}, SlotsSorted l →
    (insertSlot a l).filter (fun s => d == s.dayIndex) =
      if d = a.dayIndex then l.filter (fun s => d == s.dayIndex) ++ [a]
      else l.filter (fun s => d == s.dayIndex) := by
  intro l
  induction l with
  | nil =>
    intro _
    rw [insertSlot]
    by_cases hd : d = a.dayIndex
    · simp [hd]
    · simp [List.filter_cons, hd]
  | cons b t ih =>
    intro hsort
    rcases List.pairwise_cons.1 hsort with ⟨hb, ht⟩
    rw [insertSlot]
    split
    · rename_i hba
      rw [List.filter_cons, List.filter_cons, ih ht]
      by_cases hd : d = a.dayIndex
      · rw [if_pos hd, if_pos hd]
        by_cases hbd : (d == b.dayIndex) = true
        · rw [if_pos hbd, if_pos hbd]
          rfl
        · rw [if_neg hbd, if_neg hbd]
      · rw [if_neg hd, if_neg hd]
    · rename_i hba
      have haltb : a.dayIndex < b.dayIndex := by omega
      rw [List.filter_cons]
      by_cases hd : d = a.dayIndex
      · rw [if_pos (by simpa using hd), if_pos hd]
        have hnil : (b :: t).filter (fun s => d == s.dayIndex) = [] := by
          refine filter_day_lt hsort ?_
          intro x hx
          rcases List.mem_cons.1 hx with rfl | hx
          · omega
          · have := hb x hx
            omega
        rw [hnil]
        rfl
      · rw [if_neg (by simpa using hd), if_neg hd]

lemma sortFold_filter (d : ℕ) : ∀ (l acc : List TextFlowerSlot), SlotsSorted acc →
    (l.foldl (fun acc a => insertSlot a acc) acc).filter (fun s => d == s.dayIndex) =
      acc.filter (fun s => d == s.dayIndex) ++ l.filter (fun s => d == s.dayIndex) := by
  intro l
  induction l with
  | nil => intro acc _; simp
  | cons a l ih =>
    intro acc hacc
    rw [List.foldl_cons, ih (insertSlot a acc) (insertSlot_sorted a hacc),
      filter_day_insertSlot d a hacc, List.filter_cons]
    by_cases hd : d = a.dayIndex
    · rw [if_pos hd, if_pos (by simpa using hd)]
      simp
    · rw [if_neg hd, if_neg (by simpa using hd)]

lemma sortSlots_filter (d : ℕ) (l : List TextFlowerSlot) :
    (sortSlots l).filter (fun s => d == s.dayIndex) =
      l.filter (fun s => d == s.dayIndex) := by
  unfold sortSlots
  rw [sortFold_filter d l [] List.Pairwise.nil]
  rfl

lemma enumFrom_getElem? {α : Type} : ∀ (l : List α) (n j : ℕ),
    (List.enumFrom n l)[j]? = l[j]?.map (fun a => (n + j, a)) := by
  intro l
  induction l with
  | nil => intro n j; simp
  | cons x xs ih =>
    intro n j
    cases j with
    | zero => simp
    | succ j =>
      simp only [List.enumFrom, List.getElem?_cons_succ, ih (n + 1) j]
      have hnj : n + 1 + j = n + (j + 1) := by omega
      rw [hnj]

lemma enum_getElem? {α : Type} (l : List α) (j : ℕ) :
    l.enum[j]? = l[j]?.map (fun a => (j, a)) := by
  have := enumFrom_getElem? l 0 j
  simpa [List.enum] using this

lemma slotsOfConfig_getElem? (rngOf : RngFamily) (svgs : List String)
    (ts : TextSetConfig) (j : ℕ) {slot : TextFlowerSlot}
    (h : (slotsOfConfig rngOf svgs ts)[j]? = some slot) :
    slot.dayIndex = ts.startDay + j ∧ slot.textSetId = ts.id := by
  unfold slotsOfConfig at h
  rw [List.getElem?_map, enum_getElem?] at h
  rcases hj : (assignSpeciesToPoints
      (generateFlowerPositionsFromMask rngOf (buildTextMask ts.lines ts.maskOptions)
        { width := ts.bounds.width, height := ts.bounds.height,
          offsetX := ts.bounds.offsetX, offsetY := ts.bounds.offsetY,
          seed := some ts.seed, jitter := some ts.jitter } ts.density)
      (buildTextMask ts.lines ts.maskOptions) (jsDedup ts.lineSpecies.flatten)
      ts.lineSpecies)[j]? with _ | pt
  · rw [hj] at h
    simp at h
  · rw [hj] at h
    simp at h
    first
    | (rw [← h]; exact ⟨rfl, rfl⟩)
    | (rw [h]; exact ⟨rfl, rfl⟩)

lemma filter_day_of_indexed : ∀ (L : List TextFlowerSlot) (s d : ℕ),
    (∀ (j : ℕ) (t : TextFlowerSlot), L[j]? = some t → t.dayIndex = s + j) →
    L.filter (fun t => d == t.dayIndex) =
      if s ≤ d then (L[(d - s)]?).toList else [] := by
  intro L
  induction L with
  | nil => intro s d _; split <;> simp
  | cons t ts ih =>
    intro s d hd
    have ht : t.dayIndex = s := by simpa using hd 0 t (by simp)
    have htail : ∀ (j : ℕ) (u : TextFlowerSlot), ts[j]? = some u →
        u.dayIndex = (s + 1) + j := by
      intro j u hu
      have := hd (j + 1) u (by simpa using hu)
      omega
    rw [List.filter_cons]
    by_cases hds : d = s
    · rw [if_pos (by simp [ht, hds])]
      rw [ih (s + 1) d htail, if_neg (by omega)]
      rw [if_pos (by omega)]
      have hz : d - s = 0 := by omega
      rw [hz]
      simp
    · rw [if_neg (by simp [ht, hds])]
      rw [ih (s + 1) d htail]
      by_cases hlt : s ≤ d
      · have hlt1 : s + 1 ≤ d := by omega
        rw [if_pos hlt1, if_pos hlt]
        have h1 : d - s = (d - (s + 1)) + 1 := by omega
        rw [h1]
        simp
      · rw [if_neg (by omega), if_neg hlt]

lemma filter_day_slotsOfConfig (rngOf : RngFamily) (svgs : List String)
    (ts : TextSetConfig) (d : ℕ) :
    (slotsOfConfig rngOf svgs ts).filter (fun t => d == t.dayIndex) =
      if ts.startDay ≤ d then ((slotsOfConfig rngOf svgs ts)[(d - ts.startDay)]?).toList
      else [] :=
  filter_day_of_indexed _ ts.startDay d
    (fun j t h => (slotsOfConfig_getElem? rngOf svgs ts j h).1)

/-- The message-day branch of the loop, located: if day `i + j` has a slot,
the `j`-th output of the loop is that slot's message placement. -/
lemma gardenLoop_get_msg (f : ℕ → ℚ) (svgs : List String)
    (lookup : ℕ → Option TextFlowerSlot) (indices : List ℕ) :
    ∀ (m i k used j : ℕ) (slot : TextFlowerSlot), j < m → lookup (i + j) = some slot →
      (gardenLoop f svgs lookup indices i k used m)[j]? =
        some (mkMessageFlower (i + j) slot) := by
  intro m
  induction m with
  | zero => intro i k used j slot hj; omega
  | succ m ih =>
    intro i k used j slot hj hslot
    cases j with
    | zero =>
      rw [Nat.add_zero] at hslot
      rw [gardenLoop]
      simp only [hslot]
      simp
    | succ j =>
      have hrec : lookup ((i + 1) + j) = some slot := by
        have : (i + 1) + j = i + (j + 1) := by omega
        rw [this]
        exact hslot
      have hij : (i + 1) + j = i + (j + 1) := by omega
      cases h : lookup i with
      | some s0 =>
        rw [gardenLoop]
        simp only [h, List.getElem?_cons_succ]
        rw [ih (i + 1) k used j slot (by omega) hrec, hij]
      | none =>
        rw [gardenLoop]
        simp only [h]
        by_cases hu : used < totalCells
        · rw [if_pos hu]
          simp only [List.getElem?_cons_succ]
          rw [ih (i + 1) (k + 5) (used + 1) j slot (by omega) hrec, hij]
        · rw [if_neg hu]
          simp only [List.getElem?_cons_succ]
          rw [ih (i + 1) (k + 5) used j slot (by omega) hrec, hij]

lemma lookup_single (rngOf : RngFamily) (svgs : List String) (ts : TextSetConfig)
    (d : ℕ) :
    slotMapOf (precomputeTextFlowers rngOf svgs [ts]) d =
      if ts.startDay ≤ d then (slotsOfConfig rngOf svgs ts)[(d - ts.startDay)]?
      else none := by
  rw [slotMapOf_eq]
  unfold precomputeTextFlowers
  rw [sortSlots_filter]
  have hfl : ([ts].map (slotsOfConfig rngOf svgs)).flatten = slotsOfConfig rngOf svgs ts := by
    simp
  rw [hfl, filter_day_slotsOfConfig]
  split
  · rcases h : (slotsOfConfig rngOf svgs ts)[(d - ts.startDay)]? with _ | u <;> simp [h]
  · rfl

/-- **C5.** Message-day scheduling for a single configuration `ts`: its
`j`-th assigned point (slot) is emitted as the placement with id
`ts.startDay + j` (in assignment order) carrying `textSetId = ts.id` and
the slot's coordinates, for every scheduled day below `count`; and the
ordinary-grid cursor is unaffected by the message days — the `k`-th
ordinary placement always takes the `k`-th entry of the shuffled
permutation. -/
theorem C5_message_day_scheduling (rngOf : RngFamily) (svgs : List String)
    (ts : TextSetConfig) (count : ℤ) (hf : FamilyOk rngOf)
    (hord : ordinaryDays (slotMapOf (precomputeTextFlowers rngOf svgs [ts])) 0
      count.toNat ≤ totalCells) :
    (∀ (j : ℕ) (slot : TextFlowerSlot),
      (slotsOfConfig rngOf svgs ts)[j]? = some slot →
      ((ts.startDay + j : ℕ) : ℤ) < count →
      (generateGarden rngOf svgs count [ts])[ts.startDay + j]? =
        some (mkMessageFlower (ts.startDay + j) slot) ∧
      slot.textSetId = ts.id ∧
      (mkMessageFlower (ts.startDay + j) slot).textSetId = some ts.id ∧
      (mkMessageFlower (ts.startDay + j) slot).x = slot.point.x ∧
      (mkMessageFlower (ts.startDay + j) slot).y = slot.point.y) ∧
    ((generateGarden rngOf svgs count [ts]).filter (fun p => p.textSetId.isNone)).map
        ordinaryCellOf =
      ((shuffledIndices (rngOf SEED)).1.take
        (ordinaryDays (slotMapOf (precomputeTextFlowers rngOf svgs [ts])) 0
          count.toNat)).map (Nat.cast : ℕ → ℤ) := by
  constructor
  · intro j slot hslot hcount
    have hlookup : slotMapOf (precomputeTextFlowers rngOf svgs [ts]) (ts.startDay + j)
        = some slot := by
      rw [lookup_single, if_pos (by omega)]
      have hsj : ts.startDay + j - ts.startDay = j := by omega
      rw [hsj]
      exact hslot
    have hjm : ts.startDay + j < count.toNat := by omega
    have hget := gardenLoop_get_msg (rngOf SEED) svgs
      (slotMapOf (precomputeTextFlowers rngOf svgs [ts]))
      (shuffledIndices (rngOf SEED)).1 count.toNat 0 (shuffledIndices (rngOf SEED)).2 0
      (ts.startDay + j) slot hjm (by simpa using hlookup)
    have hid := (slotsOfConfig_getElem? rngOf svgs ts j hslot).2
    refine ⟨?_, hid, by simp [mkMessageFlower, hid], rfl, rfl⟩
    unfold generateGarden
    simpa using hget
  · have hlen : (shuffledIndices (rngOf SEED)).1.length = totalCells := by
      rw [(shuffled_perm (hf SEED)).length_eq, List.length_range]
    have htr := gardenLoop_trace (rngOf SEED) svgs
      (slotMapOf (precomputeTextFlowers rngOf svgs [ts]))
      (shuffledIndices (rngOf SEED)).1 (hf SEED) hlen count.toNat 0
      (shuffledIndices (rngOf SEED)).2 0 (by simpa using hord)
    rw [List.drop_zero] at htr
    unfold generateGarden
    exact htr

lemma ordinaryDays_le (lookup : ℕ → Option TextFlowerSlot) (i m : ℕ) :
    ordinaryDays lookup i m ≤ m := by
  unfold ordinaryDays
  calc ((List.range' i m).filter (fun d => (lookup d).isNone)).length
      ≤ (List.range' i m).length := List.length_filter_le _ _
    _ = m := by simp

lemma assignLoop_length (letterMeta : List LetterMeta) (enabled : List String)
    (lineSpecies : List (List String)) :
    ∀ (pts : List SpawnPoint) (counters : ℤ → ℕ) (starts : ℤ → Option ℕ) (idx : ℕ),
      (assignLoop letterMeta enabled lineSpecies counters starts idx pts).length =
        pts.length := by
  intro pts
  induction pts with
  | nil => intro counters starts idx; rfl
  | cons p rest ih =>
    intro counters starts idx
    rw [assignLoop]
    simp [ih]

lemma assignSpeciesToPoints_length (points : List SpawnPoint)
    (maskResult : TextMaskResult) (enabled : List String)
    (lineSpecies : List (List String)) :
    (assignSpeciesToPoints points maskResult enabled lineSpecies).length =
      points.length := by
  unfold assignSpeciesToPoints
  split
  · rfl
  · exact assignLoop_length _ _ _ points _ _ 0

lemma slotsOfConfig_length (rngOf : RngFamily) (svgs : List String) (ts : TextSetConfig) :
    (slotsOfConfig rngOf svgs ts).length =
      (generateFlowerPositionsFromMask rngOf (buildTextMask ts.lines ts.maskOptions)
        { width := ts.bounds.width, height := ts.bounds.height,
          offsetX := ts.bounds.offsetX, offsetY := ts.bounds.offsetY,
          seed := some ts.seed, jitter := some ts.jitter } ts.density).length := by
  unfold slotsOfConfig
  rw [List.length_map, List.enum_length, assignSpeciesToPoints_length]

/-- The number of "on" mask cells carrying a letter index other than `-1`. -/
def onCellCount (m : TextMaskResult) : ℕ :=
  (m.mask.enum.map (fun rp => rp.2.enum.countP (fun cp =>
    cp.2 && !(((m.letterMap[rp.1]?.getD []).getD cp.1 (-1)) == -1)))).sum

lemma processCell_one (f : ℕ → ℚ) (jitter cw chh ox oy : ℚ)
    (lm : List (List ℤ)) (lmeta : List LetterMeta) (row col : ℕ)
    (pts : List SpawnPoint) (k : ℕ) :
    processCell f 1 jitter cw chh ox oy lm lmeta row col true (pts, k) =
      copyLoop f jitter cw chh ox oy lm lmeta row col 1 (pts, k) := by
  rw [processCell_on]
  have h0 : max 0 (min 1 ((1 : ℚ) - ⌊(1 : ℚ)⌋)) = 0 := by norm_num
  simp only [h0, lt_self_iff_false, false_and, if_false, add_zero]
  rw [if_neg (by norm_num)]
  have h1 : (⌊(1 : ℚ)⌋ : ℤ).toNat = 1 := by norm_num
  rw [h1]

lemma processCell_one_length (f : ℕ → ℚ) (jitter cw chh ox oy : ℚ)
    (lm : List (List ℤ)) (lmeta : List LetterMeta) (row col : ℕ) (isOn : Bool)
    (st : List SpawnPoint × ℕ) :
    (processCell f 1 jitter cw chh ox oy lm lmeta row col isOn st).1.length =
      st.1.length +
        (if (isOn && !(((lm[row]?.getD []).getD col (-1)) == -1)) = true then 1 else 0) := by
  obtain ⟨pts, k⟩ := st
  cases isOn with
  | false => simp [processCell]
  | true =>
    rw [processCell_one, copyLoop]
    by_cases hli : (lm[row]?.getD []).getD col (-1) = -1
    · rw [if_pos hli]
      rw [List.getD_eq_getElem?_getD] at hli
      simp [hli]
    · rw [if_neg hli]
      rw [copyLoop]
      rw [List.getD_eq_getElem?_getD] at hli
      simp [hli]

lemma cellFold_one_length (f : ℕ → ℚ) (jitter cw chh ox oy : ℚ)
    (lm : List (List ℤ)) (lmeta : List LetterMeta) (row : ℕ) :
    ∀ (cells : List (ℕ × Bool)) (st : List SpawnPoint × ℕ),
      ((cells.foldl (fun st cp =>
        processCell f 1 jitter cw chh ox oy lm lmeta row cp.1 cp.2 st) st).1).length =
      st.1.length + cells.countP (fun cp =>
        cp.2 && !(((lm[row]?.getD []).getD cp.1 (-1)) == -1)) := by
  intro cells
  induction cells with
  | nil => intro st; simp
  | cons cp cells ih =>
    intro st
    rw [List.foldl_cons, ih, processCell_one_length, List.countP_cons]
    by_cases hp : (cp.2 && !(((lm[row]?.getD []).getD cp.1 (-1)) == -1)) = true <;>
      simp [hp] <;> omega

lemma rowsFold_one_length (f : ℕ → ℚ) (jitter cw chh ox oy : ℚ)
    (lm : List (List ℤ)) (lmeta : List LetterMeta) :
    ∀ (rws : List (ℕ × List Bool)) (st : List SpawnPoint × ℕ),
      ((rws.foldl (fun st rp => rp.2.enum.foldl (fun st cp =>
        processCell f 1 jitter cw chh ox oy lm lmeta rp.1 cp.1 cp.2 st) st) st).1).length =
      st.1.length + (rws.map (fun rp => rp.2.enum.countP (fun cp =>
        cp.2 && !(((lm[rp.1]?.getD []).getD cp.1 (-1)) == -1)))).sum := by
  intro rws
  induction rws with
  | nil => intro st; simp
  | cons rp rws ih =>
    intro st
    rw [List.foldl_cons, ih, cellFold_one_length, List.map_cons, List.sum_cons]
    omega

lemma genFlowerPos_one_length (rngOf : RngFamily) (m : TextMaskResult) (b : MaskBounds)
    (hne : ¬ (m.mask.length = 0 ∨ (m.mask[0]?.getD []).length = 0)) :
    (generateFlowerPositionsFromMask rngOf m b 1).length = onCellCount m := by
  unfold generateFlowerPositionsFromMask genFlowerPosAux
  rw [if_neg hne]
  rw [rowsFold_one_length]
  simp [onCellCount]

/-- A concrete one-letter message configuration used by witnesses
(the glyph `L` has 12 "on" cells, density 1). -/
def wTs1 : TextSetConfig :=
  { id := "msg1", label := "m1", lines := [['L']], startDay := 0,
    bounds := { width := 10, height := 10, offsetX := some 20, offsetY := some 30 },
    density := 1, jitter := 0, seed := 7, maskOptions := {},
    lineSpecies := [["rose", "lily", "peony"]] }

/-- A second configuration overlapping `wTs1` at day 5. -/
def wTs2 : TextSetConfig :=
  { id := "msg2", label := "m2", lines := [['L']], startDay := 5,
    bounds := { width := 10, height := 10, offsetX := some 60, offsetY := some 60 },
    density := 1, jitter := 0, seed := 9, maskOptions := {},
    lineSpecies := [["tulip", "lily", "peony"]] }

lemma wTs1_len : (slotsOfConfig wRng [] wTs1).length = 12 := by
  rw [slotsOfConfig_length]
  rw [show wTs1.density = (1 : ℚ) from rfl]
  rw [genFlowerPos_one_length _ _ _ (by decide)]
  decide

lemma wTs2_len : (slotsOfConfig wRng [] wTs2).length = 12 := by
  rw [slotsOfConfig_length]
  rw [show wTs2.density = (1 : ℚ) from rfl]
  rw [genFlowerPos_one_length _ _ _ (by decide)]
  decide

/-- Witness for C5 at the concrete configuration `wTs1` and `count = 100`. -/
theorem C5_message_day_scheduling_witness :
    (∀ (j : ℕ) (slot : TextFlowerSlot),
      (slotsOfConfig wRng [] wTs1)[j]? = some slot →
      ((wTs1.startDay + j : ℕ) : ℤ) < 100 →
      (generateGarden wRng [] 100 [wTs1])[wTs1.startDay + j]? =
        some (mkMessageFlower (wTs1.startDay + j) slot) ∧
      slot.textSetId = wTs1.id ∧
      (mkMessageFlower (wTs1.startDay + j) slot).textSetId = some wTs1.id ∧
      (mkMessageFlower (wTs1.startDay + j) slot).x = slot.point.x ∧
      (mkMessageFlower (wTs1.startDay + j) slot).y = slot.point.y) ∧
    ((generateGarden wRng [] 100 [wTs1]).filter (fun p => p.textSetId.isNone)).map
        ordinaryCellOf =
      ((shuffledIndices (wRng SEED)).1.take
        (ordinaryDays (slotMapOf (precomputeTextFlowers wRng [] [wTs1])) 0
          (100 : ℤ).toNat)).map (Nat.cast : ℕ → ℤ) :=
  C5_message_day_scheduling wRng [] wTs1 100 wRng_ok
    (le_trans (ordinaryDays_le _ _ _) (by decide))

/-! ### C9 — last write wins on day collision -/

lemma lookup_pair (rngOf : RngFamily) (svgs : List String) (ts1 ts2 : TextSetConfig)
    (d : ℕ) (h1a : ts1.startDay ≤ d)
    (h1b : d - ts1.startDay < (slotsOfConfig rngOf svgs ts1).length)
    (h2a : ts2.startDay ≤ d)
    (h2b : d - ts2.startDay < (slotsOfConfig rngOf svgs ts2).length) :
    slotMapOf (precomputeTextFlowers rngOf svgs [ts1, ts2]) d =
      (slotsOfConfig rngOf svgs ts2)[d - ts2.startDay]? := by
  rw [slotMapOf_eq]
  unfold precomputeTextFlowers
  rw [sortSlots_filter]
  have hfl : ([ts1, ts2].map (slotsOfConfig rngOf svgs)).flatten =
      slotsOfConfig rngOf svgs ts1 ++ slotsOfConfig rngOf svgs ts2 := by
    simp
  rw [hfl, List.filter_append, filter_day_slotsOfConfig, filter_day_slotsOfConfig,
    if_pos h1a, if_pos h2a,
    List.getElem?_eq_getElem h1b, List.getElem?_eq_getElem h2b]
  simp

/-- **C9.** Last write wins on a day collision: if the configurations
`ts1` and `ts2` (listed in that order) both schedule a spawn point at the
same absolute day `d < count`, the placement emitted with id `d` is the
later configuration's point — `ts2`'s slot silently overwrites `ts1`'s in
the day lookup, no error is produced, and only the one placement occupies
position `d`. -/
theorem C9_last_write_wins (rngOf : RngFamily) (svgs : List String)
    (ts1 ts2 : TextSetConfig) (d : ℕ) (count : ℤ)
    (h1 : ts1.startDay ≤ d ∧ d < ts1.startDay + (slotsOfConfig rngOf svgs ts1).length)
    (h2 : ts2.startDay ≤ d ∧ d < ts2.startDay + (slotsOfConfig rngOf svgs ts2).length)
    (hd : (d : ℤ) < count) :
    ∃ slot2 : TextFlowerSlot,
      (slotsOfConfig rngOf svgs ts2)[d - ts2.startDay]? = some slot2 ∧
      (generateGarden rngOf svgs count [ts1, ts2])[d]? =
        some (mkMessageFlower d slot2) ∧
      slot2.textSetId = ts2.id ∧
      (mkMessageFlower d slot2).textSetId = some ts2.id ∧
      (mkMessageFlower d slot2).x = slot2.point.x ∧
      (mkMessageFlower d slot2).y = slot2.point.y := by
  obtain ⟨h1a, h1b⟩ := h1
  obtain ⟨h2a, h2b⟩ := h2
  have hlt1 : d - ts1.startDay < (slotsOfConfig rngOf svgs ts1).length := by omega
  have hlt2 : d - ts2.startDay < (slotsOfConfig rngOf svgs ts2).length := by omega
  refine ⟨(slotsOfConfig rngOf svgs ts2).get ⟨d - ts2.startDay, hlt2⟩,
    by rw [List.getElem?_eq_getElem hlt2]; simp [List.get_eq_getElem], ?_, ?_, ?_, rfl, rfl⟩
  · have hlookup : slotMapOf (precomputeTextFlowers rngOf svgs [ts1, ts2]) d =
        some ((slotsOfConfig rngOf svgs ts2).get ⟨d - ts2.startDay, hlt2⟩) := by
      rw [lookup_pair rngOf svgs ts1 ts2 d h1a hlt1 h2a hlt2]
      rw [List.getElem?_eq_getElem hlt2]
      simp [List.get_eq_getElem]
    have hdm : d < count.toNat := by omega
    have hget := gardenLoop_get_msg (rngOf SEED) svgs
      (slotMapOf (precomputeTextFlowers rngOf svgs [ts1, ts2]))
      (shuffledIndices (rngOf SEED)).1 count.toNat 0 (shuffledIndices (rngOf SEED)).2 0
      d ((slotsOfConfig rngOf svgs ts2).get ⟨d - ts2.startDay, hlt2⟩) hdm
      (by simpa using hlookup)
    unfold generateGarden
    simpa using hget
  · exact (slotsOfConfig_getElem? rngOf svgs ts2 (d - ts2.startDay)
      (List.getElem?_eq_getElem hlt2)).2
  · have hid := (slotsOfConfig_getElem? rngOf svgs ts2 (d - ts2.startDay)
      (List.getElem?_eq_getElem hlt2)).2
    simp [mkMessageFlower, hid]

/-- Witness for C9: `wTs1` (days 0–11) and `wTs2` (days 5–16) collide at
day 5. -/
theorem C9_last_write_wins_witness :
    ∃ slot2 : TextFlowerSlot,
      (slotsOfConfig wRng [] wTs2)[5 - wTs2.startDay]? = some slot2 ∧
      (generateGarden wRng [] 100 [wTs1, wTs2])[5]? =
        some (mkMessageFlower 5 slot2) ∧
      slot2.textSetId = wTs2.id ∧
      (mkMessageFlower 5 slot2).textSetId = some wTs2.id ∧
      (mkMessageFlower 5 slot2).x = slot2.point.x ∧
      (mkMessageFlower 5 slot2).y = slot2.point.y :=
  C9_last_write_wins wRng [] wTs1 wTs2 5 100
    ⟨by decide, by rw [wTs1_len]; decide⟩
    ⟨by decide, by rw [wTs2_len]; decide⟩
    (by decide)

/-! ### C8 — bounds containment -/

lemma foldl_preserve {α σ : Type} (P : σ → Prop) (step : σ → α → σ)
    (h : ∀ s a, P s → P (step s a)) :
    ∀ (l : List α) (s : σ), P s → P (l.foldl step s) := by
  intro l
  induction l with
  | nil => intro s hs; exact hs
  | cons a l ih =>
    intro s hs
    rw [List.foldl_cons]
    exact ih _ (h s a hs)

lemma foldl_preserve_mem {α σ : Type} (P : σ → Prop) (step : σ → α → σ) :
    ∀ (l : List α), (∀ s a, a ∈ l → P s → P (step s a)) →
    ∀ (s : σ), P s → P (l.foldl step s) := by
  intro l
  induction l with
  | nil => intro _ s hs; exact hs
  | cons a l ih =>
    intro h s hs
    rw [List.foldl_cons]
    exact ih (fun s b hb => h s b (List.mem_cons.2 (Or.inr hb)))
      _ (h s a (List.mem_cons.2 (Or.inl rfl)) hs)

/-- All rows of a boolean grid have length `c`. -/
def RowsLen (g : List (List Bool)) (c : ℕ) : Prop :=
  ∀ (i : ℕ) (row : List Bool), g[i]? = some row → row.length = c

lemma rowsLen_set2 {g : List (List Bool)} {c : ℕ} (h : RowsLen g c) (r cc : ℕ)
    (v : Bool) : RowsLen (set2 g r cc v) c := by
  unfold set2
  rcases hr : g[r]? with _ | rowL
  · exact h
  · intro i row hi
    rw [List.getElem?_set] at hi
    by_cases hir : r = i
    · rw [if_pos hir] at hi
      split at hi
      · have := h r rowL hr
        cases hi
        simp [this]
      · cases hi
    · rw [if_neg hir] at hi
      exact h i row hi

lemma rowsLen_stampPixel {p : MaskParams} {g : MaskGrid} {c : ℕ}
    (h : RowsLen g.mask c) (row col : ℕ) (ci : ℤ) :
    RowsLen (stampPixel p row col ci g).mask c := by
  unfold stampPixel
  split
  · exact rowsLen_set2 h row col true
  · exact h

lemma rowsLen_stampGlyph {p : MaskParams} {c : ℕ} (startRow colCursor : ℕ)
    (glyph : List (List Char)) (ci : ℤ) :
    ∀ {g : MaskGrid}, RowsLen g.mask c → RowsLen (stampGlyph p startRow colCursor glyph ci g).mask c := by
  intro g hg
  unfold stampGlyph
  refine foldl_preserve (fun g : MaskGrid => RowsLen g.mask c) _ ?_ _ _ hg
  intro s r hs
  rcases glyph[r]? with _ | glyphRow
  · exact hs
  · refine foldl_preserve (fun g : MaskGrid => RowsLen g.mask c) _ ?_ _ _ hs
    intro s cc hs
    split
    · refine foldl_preserve (fun g : MaskGrid => RowsLen g.mask c) _ ?_ _ _ hs
      intro s ys hs
      refine foldl_preserve (fun g : MaskGrid => RowsLen g.mask c) _ ?_ _ _ hs
      intro s xs hs
      exact rowsLen_stampPixel hs _ _ _
    · exact hs

lemma rowsLen_stampChar {p : MaskParams} {c : ℕ} (li : ℕ) (st : LineState) (ch : Char)
    (h : RowsLen st.bs.grid.mask c) : RowsLen (stampChar p li st ch).bs.grid.mask c := by
  have hgrid : (stampChar p li st ch).bs.grid =
      stampGlyph p (li * (p.scaledCharHeight + p.lineSpacing)) st.colCursor
        ((fontLookup ch).getD spaceGlyph)
        (if ch = ' ' then -1 else (st.bs.letterCounter : ℤ)) st.bs.grid := by
    by_cases hsp : ch = ' ' <;> simp [stampChar, hsp]
  rw [hgrid]
  exact rowsLen_stampGlyph _ _ _ _ h

lemma rowsLen_stampLine {p : MaskParams} {c : ℕ} (bs : MaskBuildState) (li : ℕ)
    (line : List Char) (h : RowsLen bs.grid.mask c) :
    RowsLen (stampLine p bs li line).grid.mask c := by
  unfold stampLine
  have := foldl_preserve (fun ls : LineState => RowsLen ls.bs.grid.mask c)
    (stampChar p li) (fun s a hs => rowsLen_stampChar li s a hs) line
    { bs := bs, colCursor := (p.cols - (max line.length 1 * (p.scaledCharWidth + p.charSpacing) - p.charSpacing)) / 2, charPosition := 0 } h
  exact this

lemma replicate_rowsLen (n c : ℕ) :
    RowsLen (List.replicate n (List.replicate c false)) c := by
  intro i row hi
  rw [List.getElem?_replicate] at hi
  split at hi
  · cases hi
    simp
  · cases hi

lemma linesFold_rowsLen (p : MaskParams) (c : ℕ) (el : List (ℕ × List Char))
    (st0 : MaskBuildState) (h : RowsLen st0.grid.mask c) :
    RowsLen ((el.foldl (fun bs lp => stampLine p bs lp.1 lp.2) st0)).grid.mask c :=
  foldl_preserve (fun bs : MaskBuildState => RowsLen bs.grid.mask c) _
    (fun s lp hs => rowsLen_stampLine _ _ _ hs) el st0 h

lemma buildTextMask_rowsLen (lines : List (List Char)) (options : TextMaskOptions) :
    ∃ c : ℕ, RowsLen (buildTextMask lines options).mask c := by
  unfold buildTextMask
  exact ⟨_, linesFold_rowsLen _ _ _ _ (replicate_rowsLen _ _)⟩

lemma rowsLen_head (g : List (List Bool)) (c : ℕ) (h : RowsLen g c) (hne : g ≠ []) :
    (g[0]?.getD []).length = c := by
  rcases g with _ | ⟨r, g⟩
  · exact absurd rfl hne
  · simpa using h 0 r (by simp)

/-- Rows of a built mask all have the width of the first row. -/
lemma buildTextMask_rect (lines : List (List Char)) (options : TextMaskOptions) :
    RowsLen (buildTextMask lines options).mask
      (((buildTextMask lines options).mask[0]?.getD []).length) := by
  obtain ⟨c, hc⟩ := buildTextMask_rowsLen lines options
  by_cases hne : (buildTextMask lines options).mask = []
  · intro i row hi
    rw [hne] at hi
    simp at hi
  · rwa [rowsLen_head _ c hc hne]

lemma mem_enumFrom_facts {α : Type} :
    ∀ (l : List α) (n : ℕ) (p : ℕ × α), p ∈ List.enumFrom n l →
      n ≤ p.1 ∧ p.1 < n + l.length ∧ p.2 ∈ l := by
  intro l
  induction l with
  | nil => intro n p hp; simp [List.enumFrom] at hp
  | cons a l ih =>
    intro n p hp
    rw [List.enumFrom] at hp
    rcases List.mem_cons.1 hp with rfl | hp
    · simp
    · obtain ⟨h1, h2, h3⟩ := ih (n + 1) p hp
      refine ⟨by omega, by simp; omega, List.mem_cons.2 (Or.inr h3)⟩

lemma mem_enum_facts {α : Type} (l : List α) (p : ℕ × α) (hp : p ∈ l.enum) :
    p.1 < l.length ∧ p.2 ∈ l := by
  have := mem_enumFrom_facts l 0 p (by simpa [List.enum] using hp)
  exact ⟨by omega, this.2.2⟩

/-! Membership through the stable sort and the slot map. -/

lemma mem_sortFold :
    ∀ (l acc : List TextFlowerSlot) (x : TextFlowerSlot),
      x ∈ l.foldl (fun acc a => insertSlot a acc) acc → x ∈ acc ∨ x ∈ l := by
  intro l
  induction l with
  | nil => intro acc x hx; exact Or.inl hx
  | cons a l ih =>
    intro acc x hx
    rw [List.foldl_cons] at hx
    rcases ih _ x hx with hx | hx
    · rcases mem_insertSlot.1 hx with rfl | hx
      · exact Or.inr (List.mem_cons_self _ _)
      · exact Or.inl hx
    · exact Or.inr (List.mem_cons_of_mem _ hx)

lemma mem_sortSlots {x : TextFlowerSlot} {l : List TextFlowerSlot}
    (hx : x ∈ sortSlots l) : x ∈ l := by
  rcases mem_sortFold l [] x hx with hx | hx
  · simp at hx
  · exact hx

lemma slotMapOf_mem {l : List TextFlowerSlot} {d : ℕ} {s : TextFlowerSlot}
    (h : slotMapOf l d = some s) : s ∈ l := by
  rw [slotMapOf_eq] at h
  exact (List.mem_filter.1 (List.mem_of_mem_getLast? h)).1

/-! Species assignment does not move points. -/

lemma assignOne_xy (lmeta : List LetterMeta) (enabled : List String)
    (lineSpecies : List (List String)) (counters : ℤ → ℕ) (starts : ℤ → Option ℕ)
    (idx : ℕ) (p : SpawnPoint) :
    (assignOne lmeta enabled lineSpecies counters starts idx p).1.x = p.x ∧
    (assignOne lmeta enabled lineSpecies counters starts idx p).1.y = p.y :=
  ⟨rfl, rfl⟩

lemma assignLoop_xy (lmeta : List LetterMeta) (enabled : List String)
    (lineSpecies : List (List String)) :
    ∀ (pts : List SpawnPoint) (counters : ℤ → ℕ) (starts : ℤ → Option ℕ) (idx : ℕ)
      (q : SpawnPoint), q ∈ assignLoop lmeta enabled lineSpecies counters starts idx pts →
      ∃ p ∈ pts, q.x = p.x ∧ q.y = p.y := by
  intro pts
  induction pts with
  | nil => intro counters starts idx q hq; simp [assignLoop] at hq
  | cons p rest ih =>
    intro counters starts idx q hq
    rw [assignLoop] at hq
    simp only [List.mem_cons] at hq
    rcases hq with rfl | hq
    · exact ⟨p, List.mem_cons_self _ _,
        (assignOne_xy lmeta enabled lineSpecies counters starts idx p).1,
        (assignOne_xy lmeta enabled lineSpecies counters starts idx p).2⟩
    · obtain ⟨p0, hp0, hxy⟩ := ih _ _ _ q hq
      exact ⟨p0, List.mem_cons_of_mem _ hp0, hxy⟩

lemma assignSpeciesToPoints_xy (points : List SpawnPoint) (mres : TextMaskResult)
    (enabled : List String) (lineSpecies : List (List String)) (q : SpawnPoint)
    (hq : q ∈ assignSpeciesToPoints points mres enabled lineSpecies) :
    ∃ p ∈ points, q.x = p.x ∧ q.y = p.y := by
  unfold assignSpeciesToPoints at hq
  split at hq
  · exact ⟨q, hq, rfl, rfl⟩
  · exact assignLoop_xy _ _ _ points _ _ 0 q hq

/-! Shapes of the flowers emitted by the day loop. -/

lemma mkGridFlower_textSetId (f : ℕ → ℚ) (svgs : List String) (i k c : ℕ) :
    (mkGridFlower f svgs i k c).textSetId = none := rfl

lemma mkFallbackFlower_textSetId (f : ℕ → ℚ) (svgs : List String) (i k : ℕ) :
    (mkFallbackFlower f svgs i k).textSetId = none := rfl

lemma mkMessageFlower_textSetId (i : ℕ) (slot : TextFlowerSlot) :
    (mkMessageFlower i slot).textSetId = some slot.textSetId := rfl

lemma mkMessageFlower_xy (i : ℕ) (slot : TextFlowerSlot) :
    (mkMessageFlower i slot).x = slot.point.x ∧
    (mkMessageFlower i slot).y = slot.point.y := ⟨rfl, rfl⟩

lemma gardenLoop_mem (f : ℕ → ℚ) (svgs : List String)
    (lookup : ℕ → Option TextFlowerSlot) (indices : List ℕ)
    (hlen : indices.length = totalCells) :
    ∀ (m i k used : ℕ) (p : FlowerData),
      p ∈ gardenLoop f svgs lookup indices i k used m →
      (∃ j slot, lookup j = some slot ∧ p = mkMessageFlower j slot) ∨
      (∃ j k2 c, c ∈ indices ∧ p = mkGridFlower f svgs j k2 c) ∨
      (∃ j k2, p = mkFallbackFlower f svgs j k2) := by
  intro m
  induction m with
  | zero => intro i k used p hp; simp [gardenLoop] at hp
  | succ m ih =>
    intro i k used p hp
    cases hl : lookup i with
    | some slot =>
      rw [gardenLoop] at hp
      simp only [hl, List.mem_cons] at hp
      rcases hp with rfl | hp
      · exact Or.inl ⟨i, slot, hl, rfl⟩
      · exact ih _ _ _ p hp
    | none =>
      rw [gardenLoop] at hp
      simp only [hl] at hp
      by_cases hu : used < totalCells
      · rw [if_pos hu] at hp
        rcases List.mem_cons.1 hp with rfl | hp
        · refine Or.inr (Or.inl ⟨i, k, indices.getD used 0, ?_, rfl⟩)
          have hu' : used < indices.length := by omega
          rw [List.getD_eq_getElem indices 0 hu']
          exact List.getElem_mem hu'
        · exact ih _ _ _ p hp
      · rw [if_neg hu] at hp
        rcases List.mem_cons.1 hp with rfl | hp
        · exact Or.inr (Or.inr ⟨i, k, rfl⟩)
        · exact ih _ _ _ p hp


/-! Coordinate bounds of the ordinary branches. -/

lemma mkGridFlower_bounds (f : ℕ → ℚ) (hf : StreamOk f) (svgs : List String)
    (i k c : ℕ) (hc : c < totalCells) :
    0 ≤ (mkGridFlower f svgs i k c).x ∧ (mkGridFlower f svgs i k c).x ≤ 100 ∧
    0 ≤ (mkGridFlower f svgs i k c).y ∧ (mkGridFlower f svgs i k c).y ≤ 100 := by
  have hx : (mkGridFlower f svgs i k c).x =
      ((c % COLS : ℕ) : ℚ) * cellW + f k * cellW := rfl
  have hy : (mkGridFlower f svgs i k c).y =
      ((c / COLS : ℕ) : ℚ) * cellH + f (k + 1) * cellH := rfl
  have hcw : cellW = 100 / 64 := by norm_num [cellW, COLS]
  have hch : cellH = 100 / 56 := by norm_num [cellH, ROWS]
  have hcol : c % COLS ≤ 63 := by
    simp only [COLS]
    omega
  have hrow : c / COLS ≤ 55 := by
    have h1 : c < 3584 := by simpa [totalCells, COLS, ROWS] using hc
    simp only [COLS]
    omega
  have hcolq : ((c % COLS : ℕ) : ℚ) ≤ 63 := by exact_mod_cast hcol
  have hrowq : ((c / COLS : ℕ) : ℚ) ≤ 55 := by exact_mod_cast hrow
  have hcol0 : (0 : ℚ) ≤ ((c % COLS : ℕ) : ℚ) := Nat.cast_nonneg _
  have hrow0 : (0 : ℚ) ≤ ((c / COLS : ℕ) : ℚ) := Nat.cast_nonneg _
  have hk := hf k
  have hk1 := hf (k + 1)
  rw [hx, hy, hcw, hch]
  refine ⟨by nlinarith [hk.1], by nlinarith [hk.2], by nlinarith [hk1.1],
    by nlinarith [hk1.2]⟩

lemma mkFallbackFlower_bounds (f : ℕ → ℚ) (hf : StreamOk f) (svgs : List String)
    (i k : ℕ) :
    0 ≤ (mkFallbackFlower f svgs i k).x ∧ (mkFallbackFlower f svgs i k).x ≤ 100 ∧
    0 ≤ (mkFallbackFlower f svgs i k).y ∧ (mkFallbackFlower f svgs i k).y ≤ 100 := by
  have hx : (mkFallbackFlower f svgs i k).x = f k * 100 := rfl
  have hy : (mkFallbackFlower f svgs i k).y = f (k + 1) * 100 := rfl
  have hk := hf k
  have hk1 := hf (k + 1)
  rw [hx, hy]
  refine ⟨by nlinarith [hk.1], by nlinarith [hk.2], by nlinarith [hk1.1],
    by nlinarith [hk1.2]⟩

/-! Shape of the spawn points produced by the mask walk. -/

lemma copyLoop_mem (f : ℕ → ℚ) (jitter cw ch ox oy : ℚ)
    (lm : List (List ℤ)) (lmeta : List LetterMeta) (row col : ℕ) :
    ∀ (d : ℕ) (st : List SpawnPoint × ℕ) (q : SpawnPoint),
      q ∈ (copyLoop f jitter cw ch ox oy lm lmeta row col d st).1 →
      q ∈ st.1 ∨ ∃ k : ℕ,
        q.x = ox + ((col : ℚ) + 1/2 + (f k - 1/2) * jitter) * cw ∧
        q.y = oy + ((row : ℚ) + 1/2 + (f (k + 1) - 1/2) * jitter) * ch := by
  intro d
  induction d with
  | zero => intro st q hq; exact Or.inl hq
  | succ d ih =>
    intro st q hq
    obtain ⟨pts, k⟩ := st
    rw [copyLoop] at hq
    by_cases hli : ((lm[row]?.getD []).getD col (-1)) = -1
    · rw [if_pos hli] at hq
      exact Or.inl hq
    · rw [if_neg hli] at hq
      rcases ih _ q hq with hq | hq
      · simp only [List.mem_append, List.mem_singleton] at hq
        rcases hq with hq | rfl
        · exact Or.inl hq
        · exact Or.inr ⟨k, rfl, rfl⟩
      · exact Or.inr hq

lemma processCell_mem (f : ℕ → ℚ) (density jitter cw ch ox oy : ℚ)
    (lm : List (List ℤ)) (lmeta : List LetterMeta) (row col : ℕ) (isOn : Bool)
    (st : List SpawnPoint × ℕ) (q : SpawnPoint)
    (hq : q ∈ (processCell f density jitter cw ch ox oy lm lmeta row col isOn st).1) :
    q ∈ st.1 ∨ ∃ k : ℕ,
      q.x = ox + ((col : ℚ) + 1/2 + (f k - 1/2) * jitter) * cw ∧
      q.y = oy + ((row : ℚ) + 1/2 + (f (k + 1) - 1/2) * jitter) * ch := by
  obtain ⟨pts, k0⟩ := st
  cases isOn with
  | false =>
    unfold processCell at hq
    rw [if_pos (by decide : ((!false) = true))] at hq
    exact Or.inl hq
  | true =>
    rw [processCell_on] at hq
    by_cases hfr : (0 : ℚ) < max 0 (min 1 (density - ⌊density⌋))
    · by_cases hdr : f k0 < max 0 (min 1 (density - ⌊density⌋))
      · simp only [if_pos hfr, if_pos (And.intro hfr hdr)] at hq
        split at hq
        · exact Or.inl hq
        · have h := copyLoop_mem f jitter cw ch ox oy lm lmeta row col _ _ q hq
          exact h
      · simp only [if_pos hfr, if_neg (fun h : _ ∧ _ => hdr h.2)] at hq
        split at hq
        · exact Or.inl hq
        · have h := copyLoop_mem f jitter cw ch ox oy lm lmeta row col _ _ q hq
          exact h
    · simp only [if_neg hfr, if_neg (fun h : _ ∧ _ => hfr h.1)] at hq
      split at hq
      · exact Or.inl hq
      · have h := copyLoop_mem f jitter cw ch ox oy lm lmeta row col _ _ q hq
        exact h


lemma genFlowerPosAux_degenerate (f : ℕ → ℚ) (m : TextMaskResult) (b : MaskBounds)
    (density : ℚ) (hdeg : m.mask.length = 0 ∨ (m.mask[0]?.getD []).length = 0) :
    genFlowerPosAux f m b density = ([], 0) := by
  unfold genFlowerPosAux
  rw [if_pos hdeg]

lemma genFlowerPosAux_ne (f : ℕ → ℚ) (m : TextMaskResult) (b : MaskBounds)
    (density : ℚ) (hne : ¬ (m.mask.length = 0 ∨ (m.mask[0]?.getD []).length = 0)) :
    genFlowerPosAux f m b density =
      m.mask.enum.foldl (fun st rp => rp.2.enum.foldl (fun st cp =>
        processCell f density (b.jitter.getD (3/20))
          (b.width / (((m.mask[0]?.getD []).length : ℕ) : ℚ))
          (b.height / ((m.mask.length : ℕ) : ℚ))
          (b.offsetX.getD ((100 - b.width) / 2)) (b.offsetY.getD ((100 - b.height) / 2))
          m.letterMap m.letterMeta rp.1 cp.1 cp.2 st) st) ([], 0) := by
  unfold genFlowerPosAux
  rw [if_neg hne]

/-- The shape of every spawn point: cell centre plus jitter, for some cell
of the mask and some pair of consecutive PRNG draws. -/
abbrev SpawnShape (f : ℕ → ℚ) (m : TextMaskResult) (b : MaskBounds) (q : SpawnPoint) :
    Prop :=
  ∃ row col k : ℕ,
    row < m.mask.length ∧ col < (m.mask[0]?.getD []).length ∧
    q.x = (b.offsetX.getD ((100 - b.width) / 2)) +
      ((col : ℚ) + 1/2 + (f k - 1/2) * (b.jitter.getD (3/20))) *
        (b.width / (((m.mask[0]?.getD []).length : ℕ) : ℚ)) ∧
    q.y = (b.offsetY.getD ((100 - b.height) / 2)) +
      ((row : ℚ) + 1/2 + (f (k + 1) - 1/2) * (b.jitter.getD (3/20))) *
        (b.height / ((m.mask.length : ℕ) : ℚ))

lemma genFlowerPosAux_mem (f : ℕ → ℚ) (m : TextMaskResult) (b : MaskBounds)
    (density : ℚ) (hrect : RowsLen m.mask ((m.mask[0]?.getD []).length))
    (q : SpawnPoint) (hq : q ∈ (genFlowerPosAux f m b density).1) :
    SpawnShape f m b q := by
  by_cases hdeg : m.mask.length = 0 ∨ (m.mask[0]?.getD []).length = 0
  · rw [genFlowerPosAux_degenerate f m b density hdeg] at hq
    simp at hq
  · rw [genFlowerPosAux_ne f m b density hdeg] at hq
    have inner : ∀ (st : List SpawnPoint × ℕ) (rp : ℕ × List Bool), rp ∈ m.mask.enum →
        (∀ q ∈ st.1, SpawnShape f m b q) →
        ∀ q2 ∈ ((fun st (rp : ℕ × List Bool) => rp.2.enum.foldl (fun st cp =>
            processCell f density (b.jitter.getD (3/20))
              (b.width / (((m.mask[0]?.getD []).length : ℕ) : ℚ))
              (b.height / ((m.mask.length : ℕ) : ℚ))
              (b.offsetX.getD ((100 - b.width) / 2)) (b.offsetY.getD ((100 - b.height) / 2))
              m.letterMap m.letterMeta rp.1 cp.1 cp.2 st) st) st rp).1,
          SpawnShape f m b q2 := by
      intro st rp hrp hst
      obtain ⟨hrow, hrowmem⟩ := mem_enum_facts m.mask rp hrp
      apply foldl_preserve_mem
        (fun st : List SpawnPoint × ℕ => ∀ q2 ∈ st.1, SpawnShape f m b q2)
      · intro st2 cp hcp hst2
        intro q2 hq2
        obtain ⟨hcol, -⟩ := mem_enum_facts rp.2 cp hcp
        have hrplen : rp.2.length = (m.mask[0]?.getD []).length := by
          obtain ⟨ir, hir⟩ := List.getElem?_of_mem hrowmem
          exact hrect ir rp.2 hir
        rcases processCell_mem f density _ _ _ _ _ m.letterMap m.letterMeta
            rp.1 cp.1 cp.2 st2 q2 hq2 with h | ⟨k, hx, hy⟩
        · exact hst2 q2 h
        · exact ⟨rp.1, cp.1, k, hrow, by omega, hx, hy⟩
      · exact hst
    have key := foldl_preserve_mem
      (fun st : List SpawnPoint × ℕ => ∀ q2 ∈ st.1, SpawnShape f m b q2)
      (fun st (rp : ℕ × List Bool) => rp.2.enum.foldl (fun st cp =>
        processCell f density (b.jitter.getD (3/20))
          (b.width / (((m.mask[0]?.getD []).length : ℕ) : ℚ))
          (b.height / ((m.mask.length : ℕ) : ℚ))
          (b.offsetX.getD ((100 - b.width) / 2)) (b.offsetY.getD ((100 - b.height) / 2))
          m.letterMap m.letterMeta rp.1 cp.1 cp.2 st) st)
      m.mask.enum inner ([], 0) (by simp)
    exact key q hq

/-- Arithmetic core of the message-box bound along one axis. -/
lemma axis_bounds (colq colsq w jit fk : ℚ)
    (h0 : 0 ≤ colq) (h1 : colq ≤ colsq - 1) (hw : 0 ≤ w) (hj : 0 ≤ jit)
    (hcols : 0 < colsq) (hf0 : 0 ≤ fk) (hf1 : fk < 1) :
    - (jit / 2 * (w / colsq)) ≤ (colq + 1/2 + (fk - 1/2) * jit) * (w / colsq) ∧
    (colq + 1/2 + (fk - 1/2) * jit) * (w / colsq) ≤ w + jit / 2 * (w / colsq) := by
  have hcw : (0 : ℚ) ≤ w / colsq := div_nonneg hw hcols.le
  have hcol_cw : colsq * (w / colsq) = w := by
    field_simp
  have hjx1 : -(jit / 2) ≤ (fk - 1/2) * jit := by nlinarith [mul_nonneg hf0 hj]
  have hjx2 : (fk - 1/2) * jit ≤ jit / 2 := by
    nlinarith [mul_le_mul_of_nonneg_right hf1.le hj]
  constructor
  · nlinarith [mul_nonneg (show (0:ℚ) ≤ colq + 1/2 + (fk - 1/2) * jit + jit / 2 by
      linarith) hcw]
  · nlinarith [mul_nonneg (show (0:ℚ) ≤ colsq + jit / 2 - (colq + 1/2 + (fk - 1/2) * jit)
      by linarith) hcw]


/-! The effective geometry of a text-set configuration. -/

def tsMask (ts : TextSetConfig) : TextMaskResult := buildTextMask ts.lines ts.maskOptions

/-- Number of mask columns of a configuration. -/
def tsCols (ts : TextSetConfig) : ℕ := ((tsMask ts).mask[0]?.getD []).length

/-- Number of mask rows of a configuration. -/
def tsRows (ts : TextSetConfig) : ℕ := (tsMask ts).mask.length

/-- The effective `offsetX` (explicit, or centred). -/
def tsOffsetX (ts : TextSetConfig) : ℚ :=
  ts.bounds.offsetX.getD ((100 - ts.bounds.width) / 2)

/-- The effective `offsetY` (explicit, or centred). -/
def tsOffsetY (ts : TextSetConfig) : ℚ :=
  ts.bounds.offsetY.getD ((100 - ts.bounds.height) / 2)

/-- Width of one mask cell of a configuration. -/
def tsCellW (ts : TextSetConfig) : ℚ := ts.bounds.width / ((tsCols ts : ℕ) : ℚ)

/-- Height of one mask cell of a configuration. -/
def tsCellH (ts : TextSetConfig) : ℚ := ts.bounds.height / ((tsRows ts : ℕ) : ℚ)

lemma slotsOfConfig_box (rngOf : RngFamily) (svgs : List String) (ts : TextSetConfig)
    (hrng : FamilyOk rngOf) (hw : 0 ≤ ts.bounds.width) (hh : 0 ≤ ts.bounds.height)
    (hj : 0 ≤ ts.jitter) (slot : TextFlowerSlot)
    (hs : slot ∈ slotsOfConfig rngOf svgs ts) :
    slot.textSetId = ts.id ∧
    tsOffsetX ts - ts.jitter / 2 * tsCellW ts ≤ slot.point.x ∧
    slot.point.x ≤ tsOffsetX ts + ts.bounds.width + ts.jitter / 2 * tsCellW ts ∧
    tsOffsetY ts - ts.jitter / 2 * tsCellH ts ≤ slot.point.y ∧
    slot.point.y ≤ tsOffsetY ts + ts.bounds.height + ts.jitter / 2 * tsCellH ts := by
  unfold slotsOfConfig at hs
  obtain ⟨ip, hip, hg⟩ := List.mem_map.1 hs
  have hid : slot.textSetId = ts.id := by rw [← hg]
  have hpt : slot.point = ip.2 := by rw [← hg]
  have hmem := (mem_enum_facts _ ip hip).2
  obtain ⟨sp, hsp, hqx, hqy⟩ := assignSpeciesToPoints_xy _ _ _ _ ip.2 hmem
  have hshape := genFlowerPosAux_mem (rngOf ts.seed)
      (buildTextMask ts.lines ts.maskOptions)
      { width := ts.bounds.width, height := ts.bounds.height,
        offsetX := ts.bounds.offsetX, offsetY := ts.bounds.offsetY,
        seed := some ts.seed, jitter := some ts.jitter } ts.density
      (buildTextMask_rect ts.lines ts.maskOptions) sp hsp
  obtain ⟨row, col, k, hrow, hcol, hx, hy⟩ := hshape
  have hcol2 : col < tsCols ts := hcol
  have hrow2 : row < tsRows ts := hrow
  have hcolsq : (0 : ℚ) < ((tsCols ts : ℕ) : ℚ) := by
    have h1 : 0 < tsCols ts := by omega
    exact_mod_cast h1
  have hrowsq : (0 : ℚ) < ((tsRows ts : ℕ) : ℚ) := by
    have h1 : 0 < tsRows ts := by omega
    exact_mod_cast h1
  have hcolq1 : ((col : ℕ) : ℚ) ≤ ((tsCols ts : ℕ) : ℚ) - 1 := by
    have h1 : ((col : ℕ) : ℚ) + 1 ≤ ((tsCols ts : ℕ) : ℚ) := by
      exact_mod_cast hcol2
    linarith
  have hrowq1 : ((row : ℕ) : ℚ) ≤ ((tsRows ts : ℕ) : ℚ) - 1 := by
    have h1 : ((row : ℕ) : ℚ) + 1 ≤ ((tsRows ts : ℕ) : ℚ) := by
      exact_mod_cast hrow2
    linarith
  have haxX := axis_bounds ((col : ℕ) : ℚ) ((tsCols ts : ℕ) : ℚ) ts.bounds.width
    ts.jitter (rngOf ts.seed k) (Nat.cast_nonneg col) hcolq1 hw hj hcolsq
    (hrng ts.seed k).1 (hrng ts.seed k).2
  have haxY := axis_bounds ((row : ℕ) : ℚ) ((tsRows ts : ℕ) : ℚ) ts.bounds.height
    ts.jitter (rngOf ts.seed (k + 1)) (Nat.cast_nonneg row) hrowq1 hh hj hrowsq
    (hrng ts.seed (k + 1)).1 (hrng ts.seed (k + 1)).2
  have hx2 : slot.point.x = tsOffsetX ts +
      (((col : ℕ) : ℚ) + 1/2 + (rngOf ts.seed k - 1/2) * ts.jitter) *
        (ts.bounds.width / ((tsCols ts : ℕ) : ℚ)) := by
    rw [hpt, hqx]
    exact hx
  have hy2 : slot.point.y = tsOffsetY ts +
      (((row : ℕ) : ℚ) + 1/2 + (rngOf ts.seed (k + 1) - 1/2) * ts.jitter) *
        (ts.bounds.height / ((tsRows ts : ℕ) : ℚ)) := by
    rw [hpt, hqy]
    exact hy
  refine ⟨hid, ?_, ?_, ?_, ?_⟩
  · rw [hx2]
    simp only [tsCellW]
    linarith [haxX.1]
  · rw [hx2]
    simp only [tsCellW]
    linarith [haxX.2]
  · rw [hy2]
    simp only [tsCellH]
    linarith [haxY.1]
  · rw [hy2]
    simp only [tsCellH]
    linarith [haxY.2]


/-- **C8.** Bounds containment: every ordinary (non-message) placement of
`generateGarden` has `(x, y)` within `[0,100] × [0,100]`; every message
placement lies within its configuration's effective bounding box
(`offsetX…offsetX+width`, `offsetY…offsetY+height`) extended on each side
by at most `jitter/2` of one mask-cell width (for `x`) or height (for
`y`).  Hypotheses: the PRNG family draws in `[0,1)` and every
configuration has nonnegative width, height and jitter. -/
theorem C8_bounds_containment (rngOf : RngFamily) (svgs : List String) (count : ℤ)
    (textSets : List TextSetConfig) (hrng : FamilyOk rngOf)
    (hts : ∀ ts ∈ textSets, 0 ≤ ts.bounds.width ∧ 0 ≤ ts.bounds.height ∧ 0 ≤ ts.jitter)
    (p : FlowerData) (hp : p ∈ generateGarden rngOf svgs count textSets) :
    (p.textSetId = none ∧ 0 ≤ p.x ∧ p.x ≤ 100 ∧ 0 ≤ p.y ∧ p.y ≤ 100) ∨
    (∃ ts ∈ textSets, p.textSetId = some ts.id ∧
      tsOffsetX ts - ts.jitter / 2 * tsCellW ts ≤ p.x ∧
      p.x ≤ tsOffsetX ts + ts.bounds.width + ts.jitter / 2 * tsCellW ts ∧
      tsOffsetY ts - ts.jitter / 2 * tsCellH ts ≤ p.y ∧
      p.y ≤ tsOffsetY ts + ts.bounds.height + ts.jitter / 2 * tsCellH ts) := by
  unfold generateGarden at hp
  have hlen : (shuffledIndices (rngOf SEED)).1.length = totalCells := by
    have h := (shuffled_perm (hrng SEED)).length_eq
    simpa using h
  rcases gardenLoop_mem (rngOf SEED) svgs
      (slotMapOf (precomputeTextFlowers rngOf svgs textSets))
      (shuffledIndices (rngOf SEED)).1 hlen count.toNat 0
      (shuffledIndices (rngOf SEED)).2 0 p hp with
    ⟨j, slot, hl, rfl⟩ | ⟨j, k2, c, hc, rfl⟩ | ⟨j, k2, rfl⟩
  · right
    have hmem : slot ∈ sortSlots ((textSets.map (slotsOfConfig rngOf svgs)).flatten) :=
      slotMapOf_mem hl
    obtain ⟨L, hL, hslotL⟩ := List.mem_flatten.1 (mem_sortSlots hmem)
    obtain ⟨ts, htsm, rfl⟩ := List.mem_map.1 hL
    obtain ⟨hid, hb1, hb2, hb3, hb4⟩ := slotsOfConfig_box rngOf svgs ts hrng
      (hts ts htsm).1 (hts ts htsm).2.1 (hts ts htsm).2.2 slot hslotL
    refine ⟨ts, htsm, ?_, ?_, ?_, ?_, ?_⟩
    · rw [mkMessageFlower_textSetId, hid]
    · rw [(mkMessageFlower_xy j slot).1]
      exact hb1
    · rw [(mkMessageFlower_xy j slot).1]
      exact hb2
    · rw [(mkMessageFlower_xy j slot).2]
      exact hb3
    · rw [(mkMessageFlower_xy j slot).2]
      exact hb4
  · left
    have hc2 : c < totalCells := by
      have h := (shuffled_perm (hrng SEED)).mem_iff.1 hc
      simpa using h
    obtain ⟨g1, g2, g3, g4⟩ := mkGridFlower_bounds (rngOf SEED) (hrng SEED) svgs j k2 c hc2
    exact ⟨mkGridFlower_textSetId _ _ _ _ _, g1, g2, g3, g4⟩
  · left
    obtain ⟨g1, g2, g3, g4⟩ := mkFallbackFlower_bounds (rngOf SEED) (hrng SEED) svgs j k2
    exact ⟨mkFallbackFlower_textSetId _ _ _ _, g1, g2, g3, g4⟩

/-- A placeholder slot, used only as a `getD` default below. -/
def wSlotDefault : TextFlowerSlot :=
  { dayIndex := 0,
    point := { x := 0, y := 0, row := 0, col := 0, pixelIndex := 0, letterIndex := 0,
               lineIndex := 0, letterChar := "" },
    textSetId := "", svg := "" }

/-- The first slot of the concrete configuration `wTs1`. -/
def wSlot : TextFlowerSlot := (slotsOfConfig wRng [] wTs1).getD 0 wSlotDefault

lemma wSlot_lookup : slotMapOf (precomputeTextFlowers wRng [] [wTs1]) 0 = some wSlot := by
  rw [lookup_single wRng [] wTs1 0, if_pos (by decide : wTs1.startDay ≤ 0)]
  have hlen : 0 < (slotsOfConfig wRng [] wTs1).length := by
    rw [wTs1_len]
    decide
  show (slotsOfConfig wRng [] wTs1)[(0 : ℕ)]? = some wSlot
  rw [List.getElem?_eq_getElem hlen]
  rw [show wSlot = (slotsOfConfig wRng [] wTs1).getD 0 wSlotDefault from rfl,
    List.getD_eq_getElem _ _ hlen]

lemma wFlower_mem : mkMessageFlower 0 wSlot ∈ generateGarden wRng [] 100 [wTs1] := by
  have hget := gardenLoop_get_msg (wRng SEED) []
    (slotMapOf (precomputeTextFlowers wRng [] [wTs1]))
    (shuffledIndices (wRng SEED)).1 (100 : ℤ).toNat 0 (shuffledIndices (wRng SEED)).2
    0 0 wSlot (by decide) wSlot_lookup
  unfold generateGarden
  exact List.getElem?_mem hget

/-- Witness for C8 at the concrete input `wRng`, catalog `[]`, `count = 100`,
configurations `[wTs1]`, and the day-0 message placement. -/
theorem C8_bounds_containment_witness :
    ((mkMessageFlower 0 wSlot).textSetId = none ∧ 0 ≤ (mkMessageFlower 0 wSlot).x ∧
      (mkMessageFlower 0 wSlot).x ≤ 100 ∧ 0 ≤ (mkMessageFlower 0 wSlot).y ∧
      (mkMessageFlower 0 wSlot).y ≤ 100) ∨
    (∃ ts ∈ [wTs1], (mkMessageFlower 0 wSlot).textSetId = some ts.id ∧
      tsOffsetX ts - ts.jitter / 2 * tsCellW ts ≤ (mkMessageFlower 0 wSlot).x ∧
      (mkMessageFlower 0 wSlot).x ≤ tsOffsetX ts + ts.bounds.width +
        ts.jitter / 2 * tsCellW ts ∧
      tsOffsetY ts - ts.jitter / 2 * tsCellH ts ≤ (mkMessageFlower 0 wSlot).y ∧
      (mkMessageFlower 0 wSlot).y ≤ tsOffsetY ts + ts.bounds.height +
        ts.jitter / 2 * tsCellH ts) :=
  C8_bounds_containment wRng [] 100 [wTs1] wRng_ok
    (by
      intro ts hts2
      rcases List.mem_singleton.1 hts2 with rfl
      refine ⟨by norm_num [wTs1], by norm_num [wTs1], by norm_num [wTs1]⟩)
    (mkMessageFlower 0 wSlot) wFlower_mem


end OurGarden
